import Mathlib

/-!
# Verification of `app/application/night_batch_flow.py`

A shallow embedding of the night-batch flow builders together with the
orchestration primitives they use (`AsyncFlow`, `Context`, the shared `store`
from `app.application.flow_store`, and the collaborator builders
`build_firebird_image_flow` / `build_pricing_flow`).  The orchestration
primitives are not part of the visible sources, so they are modelled from the
specification (each such definition says so in its doc comment); the two
builders `build_run_type_flow` and `build_night_batch_flow` are translated
directly from the Python source.

Python semantics that matter here and how they are modelled:

* `params` may be `None` (the default of `build_night_batch_flow`), so the
  builders take an `Option Params`; `params.get(...)` on `None` raises
  `AttributeError`, modelled as the error `Err.noneGetAttributeError`.
* Python closures capture *variables* of the enclosing frame, not values
  (late binding).  The builder's local frame is made explicit as `Frame`;
  the loop rebinds its cells, each registered subflow callable is stored as a
  code (`SubCallable`) that reads the frame when invoked, and — since every
  invocation happens only after the build completed — callables are invoked
  with the frame in its final state, which the builder returns alongside the
  flow.
* Decorated task bodies are stored unevaluated as `TaskBody` codes; they are
  executed only by `runTaskBody`, never during the build.  The build phase
  reports the collaborator calls and context operations it performs in the
  `effects` component of its result; only `runTaskBody` and `invokeSub` emit
  effects.
-/

namespace NightBatch

/-- An entry of `params["libraries"]`: a dict carrying a `"version"` string. -/
structure Library where
  version : String
deriving DecidableEq

/-- An entry of `params["run_types"]`: a dict carrying a `"type"` string. -/
structure RunTypeConfig where
  type : String
deriving DecidableEq

/-- The `params` dict handed to the builders.  The two keys the code reads are
`"libraries"` and `"run_types"`; a dict missing one of them behaves, through
`params.get(key, [])`, exactly like a dict mapping it to `[]`, so the keys are
modelled as total fields. -/
structure Params where
  libraries : List Library
  run_types : List RunTypeConfig
deriving DecidableEq

/-- Values stored in the per-run context state. -/
inductive Value
  | libs (l : List Library)
  | runTypes (l : List RunTypeConfig)
  | str (s : String)
deriving DecidableEq

/-- The structured content of the `ctx.log(...)` f-strings emitted by the task
bodies, one constructor per source call site. -/
inductive LogMsg
  | preparingData (run_type : String)
  | foundLibraries (count : Nat) (versions : List String)
  | calculatingDifferences (run_type : String)
  | comparingResults (count : Nat)
  | sendingNotification (run_type : String)
  | preparingBatch
  | batchRunTypes (types : List String)
  | batchLibraries (versions : List String)
  | batchComplete
  | sendingSymphony
deriving DecidableEq

/-- Errors that can surface while building or running:
`duplicateNode` is the spec's `DuplicateNodeError` (§4.1, §7);
`noneGetAttributeError` is Python's `AttributeError` from `None.get(...)`;
`unboundLocal` is Python's `NameError` for a closure cell never assigned. -/
inductive Err
  | duplicateNode (id : String)
  | noneGetAttributeError
  | unboundLocal
deriving DecidableEq

/-- Modelled from the spec: the module-level `Store` object exported by
`app.application.flow_store` (a file not in the visible sources).  Flows hold
a shared reference to it; the tag makes distinct stores representable. -/
structure StoreRef where
  tag : Nat
deriving DecidableEq

/-- The single shared module-level store `app.application.flow_store.store`. -/
def store : StoreRef := ⟨0⟩

/-- Observable side effects: context operations and collaborator calls.  The
build phase is required by §4.1 to perform none of them. -/
inductive Effect
  | ctxLog (m : LogMsg)
  | ctxPush (kvs : List (String × Value))
  | callBuildFirebirdImageFlow (name : String)
  | callBuildPricingFlow (name : String)
  | callBuildRunTypeFlow (run_type : String)
deriving DecidableEq

/-- The decorated task bodies, stored unevaluated at registration time.  Each
constructor records the variables the Python closure refers to. -/
inductive TaskBody
  | prepare_data (params : Option Params) (run_type : String)
  | calculate_differences (run_type : String) (pricing_flow_tasks : List String)
  | notify_complete (run_type : String)
  | prepare_batch_data (params : Option Params)
  | notify_batch_complete
deriving DecidableEq

/-- The decorated subflow callables, stored unevaluated at registration time.
They read the builder's frame only when invoked (late binding). -/
inductive SubCallable
  | build_library_image
  | run_library_pricing
  | execute_run_type_flow
deriving DecidableEq

/-- A node is a Task or a Subflow; a Subflow additionally stores the `params`
value given at registration (`library` in the source) verbatim. -/
inductive NodeKind
  | task (body : TaskBody)
  | subflow (params : Option Library) (callable : SubCallable)
deriving DecidableEq

/-- Modelled from the spec, §3: a graph vertex with id, display name,
dependency list and its kind. -/
structure Node where
  id : String
  display_name : String
  depends_on : List String
  kind : NodeKind
deriving DecidableEq

/-- Modelled from the spec, §3: `app.infra.flow.AsyncFlow` — a named mutable
builder of a dependency graph, bound to a shared store.  `nodes` is the
registration-ordered node map (Python dicts preserve insertion order). -/
structure AsyncFlow where
  name : String
  store : StoreRef
  nodes : List Node
deriving DecidableEq

/-- The local frame of a builder call: the closure cells the registered
callables refer to.  `run_type` is a parameter in `build_run_type_flow` and
the loop variable in `build_night_batch_flow`; `version` is the loop variable
of `build_run_type_flow`; a cell never assigned is `none`. -/
structure Frame where
  params : Option Params
  run_type : Option String
  version : Option String
deriving DecidableEq

/-- Modelled from the spec, §3: the per-run context.  `state` is the pushed
key/value history (later pushes appended, so the last binding of a key wins)
and `logs` the emitted log records. -/
structure Context where
  state : List (String × Value)
  logs : List LogMsg
deriving DecidableEq

/-- Modelled from the spec, §3: `push` merges keys into the state, later
pushes overwriting earlier bindings of the same key. -/
def Context.push (c : Context) (kvs : List (String × Value)) : Context :=
  { c with state := c.state ++ kvs }

/-- Modelled from the spec, §3: `log` appends a record. -/
def Context.log (c : Context) (m : LogMsg) : Context :=
  { c with logs := c.logs ++ [m] }

/-- Looking a key up in the context state: the value of its last binding. -/
def Context.get (c : Context) (k : String) : Option Value :=
  (c.state.reverse.find? (fun p => decide (p.1 = k))).map (·.2)

/-- The value a subflow callable returns when invoked: the collaborator call
it performs, with the arguments it passes. -/
inductive SubflowResult
  | firebirdImageFlow (name : String)
  | pricingFlow (name : String)
  | runTypeFlow (params : Option Params) (run_type : String)
deriving DecidableEq

instance {ε α : Type} [DecidableEq ε] [DecidableEq α] : DecidableEq (Except ε α) := fun x y => by
  cases x <;> cases y
  case error.error a b =>
    exact if h : a = b then isTrue (h ▸ rfl) else isFalse (fun e => h (Except.error.inj e))
  case error.ok a b => exact isFalse (fun e => Except.noConfusion e)
  case ok.error a b => exact isFalse (fun e => Except.noConfusion e)
  case ok.ok a b =>
    exact if h : a = b then isTrue (h ▸ rfl) else isFalse (fun e => h (Except.ok.inj e))

/-- Everything a builder call produces: the flow (or the exception the build
raised), the final state of the builder's local frame (the environment every
registered closure will read), the effects performed during the build, and
the identity of the `AsyncFlow` object allocated by this call. -/
structure BuildOut where
  result : Except Err AsyncFlow
  frame : Frame
  effects : List Effect
  objId : Nat
deriving DecidableEq

/-- `params.get("libraries", [])`: `AttributeError` on `None`, else the value
(`[]` when the key is absent, see `Params`). -/
def pyGetLibraries (params : Option Params) : Except Err (List Library) :=
  match params with
  | none => .error .noneGetAttributeError
  | some p => .ok p.libraries

/-- `params.get("run_types", [])`: `AttributeError` on `None`, else the value. -/
def pyGetRunTypes (params : Option Params) : Except Err (List RunTypeConfig) :=
  match params with
  | none => .error .noneGetAttributeError
  | some p => .ok p.run_types

/-- Modelled from the spec, §4.1: registering a node is a pure graph mutation
that never executes the callable; it fails with `DuplicateNodeError` when the
id is already registered in this flow. -/
def AsyncFlow.register (f : AsyncFlow) (n : Node) : Except Err AsyncFlow :=
  if f.nodes.any (fun m => decide (m.id = n.id)) then .error (.duplicateNode n.id)
  else .ok { f with nodes := f.nodes ++ [n] }

/-- The ids registered in a flow, in registration order. -/
def flowIds (f : AsyncFlow) : List String := f.nodes.map (·.id)

/-- Node lookup by id. -/
def AsyncFlow.findNode (f : AsyncFlow) (i : String) : Option Node :=
  f.nodes.find? (fun n => decide (n.id = i))

/-! ## Node ids and node payloads of `build_run_type_flow` -/

/-- Python's `str.upper()` as used on the run-type strings: uppercase each
character (structural recursion so that it evaluates in the kernel). -/
def pyUpper (s : String) : String := ⟨s.data.map Char.toUpper⟩

def prepareDataId (run_type : String) : String := "prepare_" ++ run_type ++ "_data"

def buildImageId (run_type version : String) : String :=
  "build_" ++ run_type ++ "_" ++ version ++ "_image"

def pricingId (run_type version : String) : String :=
  "run_" ++ run_type ++ "_" ++ version ++ "_pricing"

def diffId (run_type : String) : String := "calculate_" ++ run_type ++ "_diff"

def notifyId (run_type : String) : String := "notify_" ++ run_type ++ "_complete"

/-- The Task node registered for `prepare_data`. -/
def prepare_data_node (params : Option Params) (run_type : String) : Node :=
  { id := prepareDataId run_type
    display_name := "Prepare " ++ pyUpper run_type ++ " Data"
    depends_on := []
    kind := .task (.prepare_data params run_type) }

/-- The Subflow node registered for `build_library_image` (one per library). -/
def build_library_image_node (run_type : String) (library : Library) : Node :=
  { id := buildImageId run_type library.version
    display_name := "Build " ++ pyUpper run_type ++ " v" ++ library.version ++ " Image"
    depends_on := [prepareDataId run_type]
    kind := .subflow (some library) .build_library_image }

/-- The Subflow node registered for `run_library_pricing` (one per library). -/
def run_library_pricing_node (run_type : String) (library : Library) : Node :=
  { id := pricingId run_type library.version
    display_name := "Run " ++ pyUpper run_type ++ " v" ++ library.version ++ " Pricing"
    depends_on := [buildImageId run_type library.version]
    kind := .subflow none .run_library_pricing }

/-- The Task node registered for `calculate_differences`. -/
def calculate_differences_node (run_type : String) (pricing_flow_tasks : List String) : Node :=
  { id := diffId run_type
    display_name := "Calculate " ++ pyUpper run_type ++ " Differences"
    depends_on := pricing_flow_tasks
    kind := .task (.calculate_differences run_type pricing_flow_tasks) }

/-- The Task node registered for `notify_complete`. -/
def notify_complete_node (run_type : String) : Node :=
  { id := notifyId run_type
    display_name := "Notify " ++ pyUpper run_type ++ " Complete"
    depends_on := [diffId run_type]
    kind := .task (.notify_complete run_type) }

/-! ## Node ids and node payloads of `build_night_batch_flow` -/

def runTypeFlowId (run_type : String) : String := "run_" ++ run_type ++ "_flow"

/-- The Task node registered for `prepare_batch_data`. -/
def prepare_batch_data_node (params : Option Params) : Node :=
  { id := "prepare_batch_data"
    display_name := "Prepare Batch Data"
    depends_on := []
    kind := .task (.prepare_batch_data params) }

/-- The Subflow node registered for `execute_run_type_flow` (one per run type). -/
def execute_run_type_flow_node (run_type : String) : Node :=
  { id := runTypeFlowId run_type
    display_name := "Run " ++ pyUpper run_type ++ " Flow"
    depends_on := ["prepare_batch_data"]
    kind := .subflow none .execute_run_type_flow }

/-- The Task node registered for `notify_batch_complete`. -/
def notify_batch_complete_node (run_type_flow_tasks : List String) : Node :=
  { id := "notify_batch_complete"
    display_name := "Notify Batch Complete"
    depends_on := run_type_flow_tasks
    kind := .task .notify_batch_complete }

/-! ## The builders, translated from `night_batch_flow.py` -/

/-- The body of the `for library in libraries:` loop of `build_run_type_flow`
(lines 38–62): rebind the frame cell `version`, register the
`build_library_image` subflow (depends on the prepare task), register the
`run_library_pricing` subflow (depends on the build subflow), and append the
pricing id to `pricing_flow_tasks`. -/
def rtStep (run_type : String) (acc : Except Err (AsyncFlow × Frame × List String))
    (library : Library) : Except Err (AsyncFlow × Frame × List String) :=
  match acc with
  | .error e => .error e
  | .ok (flow, fr, pricing_flow_tasks) =>
    let version := library.version
    let fr := { fr with version := some version }
    match flow.register (build_library_image_node run_type library) with
    | .error e => .error e
    | .ok flow =>
      match flow.register (run_library_pricing_node run_type library) with
      | .error e => .error e
      | .ok flow => .ok (flow, fr, pricing_flow_tasks ++ [pricingId run_type version])

/-- `build_run_type_flow(params, run_type)` (lines 12–83).  Creates the
`AsyncFlow` (its allocation identity is the `objId` argument), registers the
prepare task, evaluates `params.get("libraries", [])`, runs the loop,
registers the diff and notify tasks.  The build performs registrations only —
pure graph mutations — so its effect trace is empty; task bodies and subflow
callables are stored unevaluated. -/
def build_run_type_flow (params : Option Params) (run_type : String) (objId : Nat) : BuildOut :=
  let fr0 : Frame := { params := params, run_type := some run_type, version := none }
  let flow0 : AsyncFlow := { name := run_type ++ "_flow", store := store, nodes := [] }
  match flow0.register (prepare_data_node params run_type) with
  | .error e => ⟨.error e, fr0, [], objId⟩
  | .ok flow1 =>
    match pyGetLibraries params with
    | .error e => ⟨.error e, fr0, [], objId⟩
    | .ok libraries =>
      match libraries.foldl (rtStep run_type) (.ok (flow1, fr0, [])) with
      | .error e => ⟨.error e, fr0, [], objId⟩
      | .ok (flow2, fr2, pricing_flow_tasks) =>
        match flow2.register (calculate_differences_node run_type pricing_flow_tasks) with
        | .error e => ⟨.error e, fr2, [], objId⟩
        | .ok flow3 =>
          match flow3.register (notify_complete_node run_type) with
          | .error e => ⟨.error e, fr2, [], objId⟩
          | .ok flow4 => ⟨.ok flow4, fr2, [], objId⟩

/-- The body of the `for run_type_config in params.get("run_types", []):` loop
of `build_night_batch_flow` (lines 111–123): rebind the frame cell
`run_type`, register the `execute_run_type_flow` subflow, append its id to
`run_type_flow_tasks`. -/
def nbStep (acc : Except Err (AsyncFlow × Frame × List String))
    (run_type_config : RunTypeConfig) : Except Err (AsyncFlow × Frame × List String) :=
  match acc with
  | .error e => .error e
  | .ok (flow, fr, run_type_flow_tasks) =>
    let run_type := run_type_config.type
    let fr := { fr with run_type := some run_type }
    match flow.register (execute_run_type_flow_node run_type) with
    | .error e => .error e
    | .ok flow => .ok (flow, fr, run_type_flow_tasks ++ [runTypeFlowId run_type])

/-- `build_night_batch_flow(params=None)` (lines 86–135).  Registers the
batch prepare task, then evaluates `params.get("run_types", [])` at the top
level of the builder — which raises `AttributeError` when `params` is `None`,
before any flow is returned — then runs the loop and registers the final
notification task. -/
def build_night_batch_flow (params : Option Params) (objId : Nat) : BuildOut :=
  let fr0 : Frame := { params := params, run_type := none, version := none }
  let flow0 : AsyncFlow := { name := "Night Batch Flow", store := store, nodes := [] }
  match flow0.register (prepare_batch_data_node params) with
  | .error e => ⟨.error e, fr0, [], objId⟩
  | .ok flow1 =>
    match pyGetRunTypes params with
    | .error e => ⟨.error e, fr0, [], objId⟩
    | .ok run_types =>
      match run_types.foldl nbStep (.ok (flow1, fr0, [])) with
      | .error e => ⟨.error e, fr0, [], objId⟩
      | .ok (flow2, fr2, run_type_flow_tasks) =>
        match flow2.register (notify_batch_complete_node run_type_flow_tasks) with
        | .error e => ⟨.error e, fr2, [], objId⟩
        | .ok flow3 => ⟨.ok flow3, fr2, [], objId⟩

/-- The flow of a successful build (a placeholder empty flow otherwise). -/
def flowOf (b : BuildOut) : AsyncFlow :=
  match b.result with
  | .ok f => f
  | .error _ => { name := "", store := store, nodes := [] }

/-! ## Running task bodies and invoking subflow callables

These are the only effect emitters; the build phase never calls them. -/

/-- Executing a stored task body on the run context (spec §4.1/§6): the body
of the decorated Python function, with its `ctx.log`/`ctx.push` calls in
source order.  Returns the mutated context and the effect trace. -/
def runTaskBody : TaskBody → Context → Except Err (Context × List Effect)
  | .prepare_data params run_type, ctx =>
    let ctx := ctx.log (.preparingData run_type)
    match pyGetLibraries params with
    | .error e => .error e
    | .ok libraries =>
      let versions := libraries.map (·.version)
      let ctx := ctx.log (.foundLibraries libraries.length versions)
      let kvs : List (String × Value) :=
        [("libraries", .libs libraries), ("run_type", .str run_type)]
      let ctx := ctx.push kvs
      .ok (ctx, [.ctxLog (.preparingData run_type),
                 .ctxLog (.foundLibraries libraries.length versions), .ctxPush kvs])
  | .calculate_differences run_type pricing_flow_tasks, ctx =>
    let ctx := ctx.log (.calculatingDifferences run_type)
    let ctx := ctx.log (.comparingResults pricing_flow_tasks.length)
    .ok (ctx, [.ctxLog (.calculatingDifferences run_type),
               .ctxLog (.comparingResults pricing_flow_tasks.length)])
  | .notify_complete run_type, ctx =>
    let ctx := ctx.log (.sendingNotification run_type)
    .ok (ctx, [.ctxLog (.sendingNotification run_type)])
  | .prepare_batch_data params, ctx =>
    let ctx := ctx.log .preparingBatch
    match pyGetRunTypes params with
    | .error e => .error e
    | .ok run_types =>
      match pyGetLibraries params with
      | .error e => .error e
      | .ok libraries =>
        let types := run_types.map (·.type)
        let versions := libraries.map (·.version)
        let ctx := ctx.log (.batchRunTypes types)
        let ctx := ctx.log (.batchLibraries versions)
        let kvs : List (String × Value) :=
          [("run_types", .runTypes run_types), ("libraries", .libs libraries)]
        let ctx := ctx.push kvs
        .ok (ctx, [.ctxLog .preparingBatch, .ctxLog (.batchRunTypes types),
                   .ctxLog (.batchLibraries versions), .ctxPush kvs])
  | .notify_batch_complete, ctx =>
    let ctx := ctx.log .batchComplete
    let ctx := ctx.log .sendingSymphony
    .ok (ctx, [.ctxLog .batchComplete, .ctxLog .sendingSymphony])

/-- Invoking a stored subflow callable.  The callable reads the builder frame
*at invocation time* — Python closures capture variables, not values — and
every invocation happens after the build completed, so the frame handed in is
the builder's final frame.  Reading a cell that was never assigned raises
`NameError`. -/
def invokeSub (fr : Frame) : SubCallable → Except Err (SubflowResult × List Effect)
  | .build_library_image =>
    match fr.run_type, fr.version with
    | some run_type, some version =>
      .ok (.firebirdImageFlow (run_type ++ "_" ++ version),
           [.callBuildFirebirdImageFlow (run_type ++ "_" ++ version)])
    | _, _ => .error .unboundLocal
  | .run_library_pricing =>
    match fr.run_type, fr.version with
    | some run_type, some version =>
      .ok (.pricingFlow (run_type ++ "_" ++ version ++ "_pricing"),
           [.callBuildPricingFlow (run_type ++ "_" ++ version ++ "_pricing")])
    | _, _ => .error .unboundLocal
  | .execute_run_type_flow =>
    match fr.run_type with
    | some run_type =>
      .ok (.runTypeFlow fr.params run_type, [.callBuildRunTypeFlow run_type])
    | none => .error .unboundLocal

/-! ## Derived notions used by the verification -/

/-- Scans a list of keys left to right, carrying the keys already `seen`;
returns the first key that repeats an earlier one (`none` when all are fresh).
This is the shape in which the registration loops fail on duplicates. -/
def firstDup (seen : List String) : List String → Option String
  | [] => none
  | v :: rest => if v ∈ seen then some v else firstDup (v :: seen) rest

/-- The final value of the `version` loop cell after iterating over `libs`,
starting from `acc`. -/
def lastVersionOf (libs : List Library) (acc : Option String) : Option String :=
  libs.foldl (fun _ l => some l.version) acc

/-- The final value of the `run_type` loop cell after iterating over `cfgs`,
starting from `acc`. -/
def lastTypeOf (cfgs : List RunTypeConfig) (acc : Option String) : Option String :=
  cfgs.foldl (fun _ c => some c.type) acc

/-! ## Run semantics (spec §4.2/§5, success path)

A run is observed as a trace of `start`/`finish` events.  A node may start
only when it is Ready (Pending, all dependencies Succeeded); per §4.2 the
executor dispatches **all** currently Ready nodes before awaiting any
completion, so a `finish` event may only be observed while no Ready node
remains undispatched.  Only the success path is modelled: the claims checked
against this semantics quantify over runs in which every finished node
succeeded. -/

/-- Node status during a run. -/
inductive Status
  | pending
  | running
  | succeeded
deriving DecidableEq

/-- An observable scheduler event. -/
inductive Ev
  | start (id : String)
  | finish (id : String)
deriving DecidableEq

/-- The status of node `i` after the events `t`. -/
def statusIn (t : List Ev) (i : String) : Status :=
  if Ev.finish i ∈ t then .succeeded else if Ev.start i ∈ t then .running else .pending

/-- Modelled from the spec, §4.2 step 2: a node is Ready when it is Pending
and all its dependencies are Succeeded. -/
def nodeReady (past : List Ev) (n : Node) : Bool :=
  decide (statusIn past n.id = .pending) &&
    n.depends_on.all (fun d => decide (statusIn past d = .succeeded))

/-- Modelled from the spec, §4.2: a `start` is legal for a registered Ready
node; a `finish` is legal for a Running node, and only once every Ready node
has been dispatched (step 3 dispatches the whole frontier before the executor
suspends). -/
def okEv (f : AsyncFlow) (past : List Ev) : Ev → Bool
  | .start i => (f.findNode i).elim false (fun n => nodeReady past n)
  | .finish i =>
    decide (statusIn past i = .running) && f.nodes.all (fun n => !nodeReady past n)

/-- Every event of the trace is legal at its position, given `past`. -/
def validFrom (f : AsyncFlow) (past : List Ev) : List Ev → Bool
  | [] => true
  | e :: rest => okEv f past e && validFrom f (past ++ [e]) rest

/-- A legal observation of a (prefix of a) successful run of `f`. -/
def validTrace (f : AsyncFlow) (t : List Ev) : Bool := validFrom f [] t

/-! ## Registration order versus dependency references -/

/-- `forwardRefFreeAux seen ns = true` iff replaying the registrations `ns`
after the ids `seen`, every `depends_on` entry refers to an id already
registered at the time of that registration call. -/
def forwardRefFreeAux (seen : List String) : List Node → Bool
  | [] => true
  | n :: rest =>
    n.depends_on.all (fun d => decide (d ∈ seen)) && forwardRefFreeAux (seen ++ [n.id]) rest

/-- No registration in the build sequence `ns` references a node id that was
not yet registered when the registration call was made. -/
def forwardRefFree (ns : List Node) : Bool := forwardRefFreeAux [] ns

/-- `a` directly depends on `b` in `f`. -/
def HasEdge (f : AsyncFlow) (a b : String) : Prop :=
  ∃ n, n ∈ f.nodes ∧ n.id = a ∧ b ∈ n.depends_on

/-- `a` depends on `b` through one or more edges. -/
inductive DepPath (f : AsyncFlow) : String → String → Prop
  | single {a b : String} : HasEdge f a b → DepPath f a b
  | cons {a b c : String} : HasEdge f a b → DepPath f b c → DepPath f a c

/-- The dependency relation of `f`, viewed as a graph, has no cycle. -/
def Acyclic (f : AsyncFlow) : Prop := ∀ a, ¬ DepPath f a a

/-- Registration index of the node with id `a`. -/
def rankOf (f : AsyncFlow) (a : String) : Nat :=
  f.nodes.findIdx (fun n => decide (n.id = a))

/-! ## The node lists the builders produce -/

/-- The node list `build_run_type_flow(params, run_type)` registers, in
registration order. -/
def rtNodes (params : Option Params) (rt : String) (libs : List Library) : List Node :=
  prepare_data_node params rt ::
    (libs.flatMap (fun l => [build_library_image_node rt l, run_library_pricing_node rt l]) ++
     [calculate_differences_node rt (libs.map (fun l => pricingId rt l.version)),
      notify_complete_node rt])

/-- The node list `build_night_batch_flow(params)` registers, in registration
order. -/
def nbNodes (params : Option Params) (cfgs : List RunTypeConfig) : List Node :=
  prepare_batch_data_node params ::
    (cfgs.map (fun c => execute_run_type_flow_node c.type) ++
     [notify_batch_complete_node (cfgs.map (fun c => runTypeFlowId c.type))])

/-- Dependency depth of a node id in a run-type flow over `libs`:
prepare < build < pricing < diff < notify. -/
def rtLevel (rt : String) (libs : List Library) (a : String) : Nat :=
  if a = prepareDataId rt then 0
  else if libs.any (fun l => decide (a = buildImageId rt l.version)) then 1
  else if libs.any (fun l => decide (a = pricingId rt l.version)) then 2
  else if a = diffId rt then 3
  else 4

/-- Dependency depth of a node id in the night-batch flow:
prepare < run-type subflows < notify. -/
def nbLevel (a : String) : Nat :=
  if a = "prepare_batch_data" then 0
  else if a = "notify_batch_complete" then 2
  else 1

/-! ## The example input used for concrete evaluations -/

/-- Example night-batch parameters: two libraries (versions `1.0`, `2.0`) and
two run types (`ftb`, `hpl`). -/
def sampleParams : Params := ⟨[⟨"1.0"⟩, ⟨"2.0"⟩], [⟨"ftb"⟩, ⟨"hpl"⟩]⟩

/-! ## Disjointness and injectivity of the generated node ids

Every id family starts with its own keyword (`prepare_`, `build_`, `run_`,
`calculate_`, `notify_`), whose first characters are pairwise distinct, and
within a family the id determines the version (resp. run type). -/

lemma str_data_append (a b : String) : (a ++ b).data = a.data ++ b.data := rfl

lemma str_append_left_cancel {s a b : String} (h : s ++ a = s ++ b) : a = b := by
  apply String.ext
  have h2 := congrArg String.data h
  rw [str_data_append, str_data_append] at h2
  exact List.append_cancel_left h2

lemma str_append_right_cancel {a b s : String} (h : a ++ s = b ++ s) : a = b := by
  apply String.ext
  have h2 := congrArg String.data h
  rw [str_data_append, str_data_append] at h2
  exact List.append_cancel_right h2

lemma ne_of_head {a b : String} (h : a.data.head? ≠ b.data.head?) : a ≠ b :=
  fun e => h (by rw [e])

lemma prepareDataId_head (rt : String) : (prepareDataId rt).data.head? = some 'p' := rfl

lemma buildImageId_head (rt v : String) : (buildImageId rt v).data.head? = some 'b' := rfl

lemma pricingId_head (rt v : String) : (pricingId rt v).data.head? = some 'r' := rfl

lemma diffId_head (rt : String) : (diffId rt).data.head? = some 'c' := rfl

lemma notifyId_head (rt : String) : (notifyId rt).data.head? = some 'n' := rfl

lemma runTypeFlowId_head (rt : String) : (runTypeFlowId rt).data.head? = some 'r' := rfl

lemma buildImageId_ne_prepareDataId (rt rt' v : String) :
    buildImageId rt v ≠ prepareDataId rt' :=
  ne_of_head (by rw [buildImageId_head, prepareDataId_head]; decide)

lemma pricingId_ne_prepareDataId (rt rt' v : String) :
    pricingId rt v ≠ prepareDataId rt' :=
  ne_of_head (by rw [pricingId_head, prepareDataId_head]; decide)

lemma buildImageId_ne_pricingId (rt rt' v v' : String) :
    buildImageId rt v ≠ pricingId rt' v' :=
  ne_of_head (by rw [buildImageId_head, pricingId_head]; decide)

lemma diffId_ne_prepareDataId (rt rt' : String) : diffId rt ≠ prepareDataId rt' :=
  ne_of_head (by rw [diffId_head, prepareDataId_head]; decide)

lemma diffId_ne_buildImageId (rt rt' v : String) : diffId rt ≠ buildImageId rt' v :=
  ne_of_head (by rw [diffId_head, buildImageId_head]; decide)

lemma diffId_ne_pricingId (rt rt' v : String) : diffId rt ≠ pricingId rt' v :=
  ne_of_head (by rw [diffId_head, pricingId_head]; decide)

lemma notifyId_ne_prepareDataId (rt rt' : String) : notifyId rt ≠ prepareDataId rt' :=
  ne_of_head (by rw [notifyId_head, prepareDataId_head]; decide)

lemma notifyId_ne_buildImageId (rt rt' v : String) : notifyId rt ≠ buildImageId rt' v :=
  ne_of_head (by rw [notifyId_head, buildImageId_head]; decide)

lemma notifyId_ne_pricingId (rt rt' v : String) : notifyId rt ≠ pricingId rt' v :=
  ne_of_head (by rw [notifyId_head, pricingId_head]; decide)

lemma notifyId_ne_diffId (rt rt' : String) : notifyId rt ≠ diffId rt' :=
  ne_of_head (by rw [notifyId_head, diffId_head]; decide)

lemma buildImageId_inj {rt v v' : String} (h : buildImageId rt v = buildImageId rt v') :
    v = v' :=
  str_append_left_cancel (str_append_right_cancel h)

lemma pricingId_inj {rt v v' : String} (h : pricingId rt v = pricingId rt v') : v = v' :=
  str_append_left_cancel (str_append_right_cancel h)

lemma runTypeFlowId_inj {t t' : String} (h : runTypeFlowId t = runTypeFlowId t') : t = t' :=
  str_append_left_cancel (str_append_right_cancel h)

lemma runTypeFlowId_ne_prepareBatch (t : String) :
    runTypeFlowId t ≠ "prepare_batch_data" :=
  ne_of_head (by rw [runTypeFlowId_head]; decide)

lemma runTypeFlowId_ne_notifyBatch (t : String) :
    runTypeFlowId t ≠ "notify_batch_complete" :=
  ne_of_head (by rw [runTypeFlowId_head]; decide)

lemma notifyBatch_ne_prepareBatch :
    ("notify_batch_complete" : String) ≠ "prepare_batch_data" := by decide

/-! ## Characterizing the build sequences -/

lemma register_of_not_mem {f : AsyncFlow} {n : Node} (h : n.id ∉ flowIds f) :
    f.register n = .ok { f with nodes := f.nodes ++ [n] } := by
  unfold AsyncFlow.register
  rw [if_neg]
  intro hc
  rcases List.any_eq_true.mp hc with ⟨m, hm, hdec⟩
  exact h (List.mem_map.mpr ⟨m, hm, of_decide_eq_true hdec⟩)

lemma register_of_mem {f : AsyncFlow} {n : Node} (h : n.id ∈ flowIds f) :
    f.register n = .error (.duplicateNode n.id) := by
  unfold AsyncFlow.register
  rw [if_pos]
  rcases List.mem_map.mp h with ⟨m, hm, hid⟩
  exact List.any_eq_true.mpr ⟨m, hm, decide_eq_true hid⟩

lemma flowIds_snoc (f : AsyncFlow) (n : Node) :
    flowIds { f with nodes := f.nodes ++ [n] } = flowIds f ++ [n.id] := by
  simp [flowIds]

lemma foldl_rtStep_error (rt : String) (libs : List Library) (e : Err) :
    libs.foldl (rtStep rt) (.error e) = .error e := by
  induction libs with
  | nil => rfl
  | cons l rest ih => simpa [rtStep] using ih

/-- What the `for library in libraries:` loop does, for any starting flow
whose registered build/pricing ids are exactly those of the versions in
`seen`: it fails with `DuplicateNodeError` on the build-image id of the first
version repeating an earlier one, and otherwise appends, per library in
order, its build-image and pricing nodes, leaves the `version` cell at the
last version, and appends the pricing ids to `pricing_flow_tasks`. -/
lemma rtLoop_spec (rt : String) (libs : List Library) :
    ∀ (flow : AsyncFlow) (fr : Frame) (tasks seen : List String),
      (∀ v, buildImageId rt v ∈ flowIds flow ↔ v ∈ seen) →
      (∀ v, pricingId rt v ∈ flowIds flow ↔ v ∈ seen) →
      libs.foldl (rtStep rt) (.ok (flow, fr, tasks)) =
        match firstDup seen (libs.map (·.version)) with
        | some v => .error (.duplicateNode (buildImageId rt v))
        | none =>
          .ok ({ flow with nodes := flow.nodes ++
                   libs.flatMap (fun l => [build_library_image_node rt l, run_library_pricing_node rt l]) },
               { fr with version := lastVersionOf libs fr.version },
               tasks ++ libs.map (fun l => pricingId rt l.version)) := by
  induction libs with
  | nil =>
    intro flow fr tasks seen hb hp
    simp [firstDup, lastVersionOf]
  | cons l rest ih =>
    intro flow fr tasks seen hb hp
    rw [List.foldl_cons]
    by_cases hv : l.version ∈ seen
    · have hreg : flow.register (build_library_image_node rt l) =
          .error (.duplicateNode (buildImageId rt l.version)) :=
        register_of_mem ((hb l.version).mpr hv)
      have hstep : rtStep rt (.ok (flow, fr, tasks)) l =
          .error (.duplicateNode (buildImageId rt l.version)) := by
        simp [rtStep, hreg]
      rw [hstep, foldl_rtStep_error]
      simp [firstDup, hv]
    · have hregb : flow.register (build_library_image_node rt l) =
          .ok { flow with nodes := flow.nodes ++ [build_library_image_node rt l] } :=
        register_of_not_mem (fun h => hv ((hb l.version).mp h))
      have hpnew : pricingId rt l.version ∉
          flowIds { flow with nodes := flow.nodes ++ [build_library_image_node rt l] } := by
        rw [flowIds_snoc]
        intro h
        rcases List.mem_append.mp h with h | h
        · exact hv ((hp l.version).mp h)
        · exact buildImageId_ne_pricingId rt rt l.version l.version
            ((List.mem_singleton.mp h).symm)
      have hregp :
          AsyncFlow.register { flow with nodes := flow.nodes ++ [build_library_image_node rt l] }
            (run_library_pricing_node rt l) =
          .ok { flow with nodes := flow.nodes ++ [build_library_image_node rt l] ++
                  [run_library_pricing_node rt l] } :=
        register_of_not_mem hpnew
      have hstep : rtStep rt (.ok (flow, fr, tasks)) l =
          .ok ({ flow with nodes := flow.nodes ++ [build_library_image_node rt l] ++
                   [run_library_pricing_node rt l] },
               { fr with version := some l.version },
               tasks ++ [pricingId rt l.version]) := by
        simp [rtStep, hregb, hregp]
      rw [hstep]
      have hb' : ∀ v, buildImageId rt v ∈
          flowIds { flow with nodes := flow.nodes ++ [build_library_image_node rt l] ++
            [run_library_pricing_node rt l] } ↔ v ∈ l.version :: seen := by
        intro v
        constructor
        · intro h
          simp only [flowIds, List.map_append, List.mem_append] at h
          rcases h with (h | h) | h
          · exact List.mem_cons.mpr (Or.inr ((hb v).mp h))
          · simp only [List.map_cons, List.map_nil, List.mem_singleton] at h
            exact List.mem_cons.mpr (Or.inl (buildImageId_inj h))
          · simp only [List.map_cons, List.map_nil, List.mem_singleton] at h
            exact absurd h (buildImageId_ne_pricingId rt rt v l.version)
        · intro h
          simp only [flowIds, List.map_append, List.mem_append]
          rcases List.mem_cons.mp h with h | h
          · subst h
            exact Or.inl (Or.inr (by simp [build_library_image_node]))
          · exact Or.inl (Or.inl ((hb v).mpr h))
      have hp' : ∀ v, pricingId rt v ∈
          flowIds { flow with nodes := flow.nodes ++ [build_library_image_node rt l] ++
            [run_library_pricing_node rt l] } ↔ v ∈ l.version :: seen := by
        intro v
        constructor
        · intro h
          simp only [flowIds, List.map_append, List.mem_append] at h
          rcases h with (h | h) | h
          · exact List.mem_cons.mpr (Or.inr ((hp v).mp h))
          · simp only [List.map_cons, List.map_nil, List.mem_singleton] at h
            exact absurd h.symm (buildImageId_ne_pricingId rt rt l.version v)
          · simp only [List.map_cons, List.map_nil, List.mem_singleton] at h
            exact List.mem_cons.mpr (Or.inl (pricingId_inj h))
        · intro h
          simp only [flowIds, List.map_append, List.mem_append]
          rcases List.mem_cons.mp h with h | h
          · subst h
            exact Or.inr (by simp [run_library_pricing_node])
          · exact Or.inl (Or.inl ((hp v).mpr h))
      rw [ih _ _ _ (l.version :: seen) hb' hp']
      have hfd : firstDup seen ((l :: rest).map (·.version)) =
          firstDup (l.version :: seen) (rest.map (·.version)) := by
        simp [firstDup, hv]
      rw [hfd]
      cases hfd2 : firstDup (l.version :: seen) (rest.map (·.version)) with
      | some v => rfl
      | none =>
        simp [List.flatMap_cons, List.map_cons, lastVersionOf, List.append_assoc]

lemma foldl_nbStep_error (cfgs : List RunTypeConfig) (e : Err) :
    cfgs.foldl nbStep (.error e) = .error e := by
  induction cfgs with
  | nil => rfl
  | cons c rest ih => simpa [nbStep] using ih

/-- Night-batch analogue of `rtLoop_spec` for the `for run_type_config in
params.get("run_types", []):` loop. -/
lemma nbLoop_spec (cfgs : List RunTypeConfig) :
    ∀ (flow : AsyncFlow) (fr : Frame) (tasks seen : List String),
      (∀ t, runTypeFlowId t ∈ flowIds flow ↔ t ∈ seen) →
      cfgs.foldl nbStep (.ok (flow, fr, tasks)) =
        match firstDup seen (cfgs.map (·.type)) with
        | some t => .error (.duplicateNode (runTypeFlowId t))
        | none =>
          .ok ({ flow with nodes := flow.nodes ++
                   cfgs.map (fun c => execute_run_type_flow_node c.type) },
               { fr with run_type := lastTypeOf cfgs fr.run_type },
               tasks ++ cfgs.map (fun c => runTypeFlowId c.type)) := by
  induction cfgs with
  | nil =>
    intro flow fr tasks seen hr
    simp [firstDup, lastTypeOf]
  | cons c rest ih =>
    intro flow fr tasks seen hr
    rw [List.foldl_cons]
    by_cases ht : c.type ∈ seen
    · have hreg : flow.register (execute_run_type_flow_node c.type) =
          .error (.duplicateNode (runTypeFlowId c.type)) :=
        register_of_mem ((hr c.type).mpr ht)
      have hstep : nbStep (.ok (flow, fr, tasks)) c =
          .error (.duplicateNode (runTypeFlowId c.type)) := by
        simp [nbStep, hreg]
      rw [hstep, foldl_nbStep_error]
      simp [firstDup, ht]
    · have hreg : flow.register (execute_run_type_flow_node c.type) =
          .ok { flow with nodes := flow.nodes ++ [execute_run_type_flow_node c.type] } :=
        register_of_not_mem (fun h => ht ((hr c.type).mp h))
      have hstep : nbStep (.ok (flow, fr, tasks)) c =
          .ok ({ flow with nodes := flow.nodes ++ [execute_run_type_flow_node c.type] },
               { fr with run_type := some c.type },
               tasks ++ [runTypeFlowId c.type]) := by
        simp [nbStep, hreg]
      rw [hstep]
      have hr' : ∀ t, runTypeFlowId t ∈
          flowIds { flow with nodes := flow.nodes ++ [execute_run_type_flow_node c.type] } ↔
          t ∈ c.type :: seen := by
        intro t
        rw [flowIds_snoc]
        constructor
        · intro h
          rcases List.mem_append.mp h with h | h
          · exact List.mem_cons.mpr (Or.inr ((hr t).mp h))
          · exact List.mem_cons.mpr (Or.inl (runTypeFlowId_inj (List.mem_singleton.mp h)))
        · intro h
          rcases List.mem_cons.mp h with h | h
          · subst h
            exact List.mem_append.mpr (Or.inr (by simp [execute_run_type_flow_node]))
          · exact List.mem_append.mpr (Or.inl ((hr t).mpr h))
      rw [ih _ _ _ (c.type :: seen) hr']
      have hfd : firstDup seen ((c :: rest).map (·.type)) =
          firstDup (c.type :: seen) (rest.map (·.type)) := by
        simp [firstDup, ht]
      rw [hfd]
      cases hfd2 : firstDup (c.type :: seen) (rest.map (·.type)) with
      | some t => rfl
      | none => simp [lastTypeOf, List.append_assoc]

lemma mem_pair_ids {rt : String} {libs : List Library} {x : String}
    (h : x ∈ (libs.flatMap
        (fun l => [build_library_image_node rt l, run_library_pricing_node rt l])).map (·.id)) :
    ∃ l, l ∈ libs ∧ (x = buildImageId rt l.version ∨ x = pricingId rt l.version) := by
  rcases List.mem_map.mp h with ⟨n, hn, hx⟩
  rcases List.mem_flatMap.mp hn with ⟨l, hl, hnl⟩
  rcases List.mem_cons.mp hnl with h1 | h1
  · exact ⟨l, hl, Or.inl (by rw [← hx, h1]; rfl)⟩
  · have h2 := List.mem_singleton.mp h1
    exact ⟨l, hl, Or.inr (by rw [← hx, h2]; rfl)⟩

/-- Outcome of `build_run_type_flow` on a `params` dict: `DuplicateNodeError`
on the build-image id of the first repeated version, or the flow holding
exactly `rtNodes`, with the loop cell `version` left at the last version. -/
lemma build_run_type_flow_some (p : Params) (rt : String) (i : Nat) :
    build_run_type_flow (some p) rt i =
      match firstDup [] (p.libraries.map (·.version)) with
      | some v => ⟨.error (.duplicateNode (buildImageId rt v)), ⟨some p, some rt, none⟩, [], i⟩
      | none => ⟨.ok ⟨rt ++ "_flow", store, rtNodes (some p) rt p.libraries⟩,
                 ⟨some p, some rt, lastVersionOf p.libraries none⟩, [], i⟩ := by
  have key : build_run_type_flow (some p) rt i =
      match p.libraries.foldl (rtStep rt)
          (.ok (⟨rt ++ "_flow", store, [prepare_data_node (some p) rt]⟩,
                (⟨some p, some rt, none⟩ : Frame), [])) with
      | .error e => ⟨.error e, ⟨some p, some rt, none⟩, [], i⟩
      | .ok (flow2, fr2, tasks) =>
        match flow2.register (calculate_differences_node rt tasks) with
        | .error e => ⟨.error e, fr2, [], i⟩
        | .ok flow3 =>
          match flow3.register (notify_complete_node rt) with
          | .error e => ⟨.error e, fr2, [], i⟩
          | .ok flow4 => ⟨.ok flow4, fr2, [], i⟩ := rfl
  rw [key]
  have hb : ∀ v, buildImageId rt v ∈
      flowIds (⟨rt ++ "_flow", store, [prepare_data_node (some p) rt]⟩ : AsyncFlow) ↔
      v ∈ ([] : List String) := by
    intro v
    simp only [flowIds, List.map_cons, List.map_nil, List.mem_singleton, List.not_mem_nil,
      iff_false]
    exact buildImageId_ne_prepareDataId rt rt v
  have hp : ∀ v, pricingId rt v ∈
      flowIds (⟨rt ++ "_flow", store, [prepare_data_node (some p) rt]⟩ : AsyncFlow) ↔
      v ∈ ([] : List String) := by
    intro v
    simp only [flowIds, List.map_cons, List.map_nil, List.mem_singleton, List.not_mem_nil,
      iff_false]
    exact pricingId_ne_prepareDataId rt rt v
  rw [rtLoop_spec rt p.libraries _ _ _ [] hb hp]
  cases hfd : firstDup [] (p.libraries.map (·.version)) with
  | some v => rfl
  | none =>
    have hdiff : (⟨rt ++ "_flow", store,
        prepare_data_node (some p) rt ::
          p.libraries.flatMap
            (fun l => [build_library_image_node rt l, run_library_pricing_node rt l])⟩ :
        AsyncFlow).register
          (calculate_differences_node rt (p.libraries.map (fun l => pricingId rt l.version))) =
        .ok ⟨rt ++ "_flow", store,
          prepare_data_node (some p) rt ::
            p.libraries.flatMap
              (fun l => [build_library_image_node rt l, run_library_pricing_node rt l]) ++
          [calculate_differences_node rt (p.libraries.map (fun l => pricingId rt l.version))]⟩ := by
      apply register_of_not_mem
      intro h
      simp only [flowIds, List.map_cons, List.mem_cons] at h
      rcases h with h | h
      · exact diffId_ne_prepareDataId rt rt h
      · rcases mem_pair_ids h with ⟨l, _, h1 | h1⟩
        · exact diffId_ne_buildImageId rt rt l.version h1
        · exact diffId_ne_pricingId rt rt l.version h1
    have hnot : (⟨rt ++ "_flow", store,
        prepare_data_node (some p) rt ::
          p.libraries.flatMap
            (fun l => [build_library_image_node rt l, run_library_pricing_node rt l]) ++
        [calculate_differences_node rt (p.libraries.map (fun l => pricingId rt l.version))]⟩ :
        AsyncFlow).register (notify_complete_node rt) =
        .ok ⟨rt ++ "_flow", store,
          (prepare_data_node (some p) rt ::
            p.libraries.flatMap
              (fun l => [build_library_image_node rt l, run_library_pricing_node rt l]) ++
          [calculate_differences_node rt (p.libraries.map (fun l => pricingId rt l.version))]) ++
          [notify_complete_node rt]⟩ := by
      apply register_of_not_mem
      intro h
      simp only [flowIds, List.map_append, List.map_cons, List.map_nil, List.mem_append,
        List.mem_cons, List.mem_singleton, List.not_mem_nil, or_false] at h
      rcases h with (h | h) | h
      · exact notifyId_ne_prepareDataId rt rt h
      · rcases mem_pair_ids h with ⟨l, _, h1 | h1⟩
        · exact notifyId_ne_buildImageId rt rt l.version h1
        · exact notifyId_ne_pricingId rt rt l.version h1
      · exact notifyId_ne_diffId rt rt h
    simp only [List.singleton_append, List.nil_append]
    rw [hdiff]
    simp only []
    rw [hnot]
    simp [rtNodes, List.append_assoc]

/-- Outcome of `build_night_batch_flow` on a `params` dict. -/
lemma build_night_batch_flow_some (p : Params) (i : Nat) :
    build_night_batch_flow (some p) i =
      match firstDup [] (p.run_types.map (·.type)) with
      | some t => ⟨.error (.duplicateNode (runTypeFlowId t)), ⟨some p, none, none⟩, [], i⟩
      | none => ⟨.ok ⟨"Night Batch Flow", store, nbNodes (some p) p.run_types⟩,
                 ⟨some p, lastTypeOf p.run_types none, none⟩, [], i⟩ := by
  have key : build_night_batch_flow (some p) i =
      match p.run_types.foldl nbStep
          (.ok (⟨"Night Batch Flow", store, [prepare_batch_data_node (some p)]⟩,
                (⟨some p, none, none⟩ : Frame), [])) with
      | .error e => ⟨.error e, ⟨some p, none, none⟩, [], i⟩
      | .ok (flow2, fr2, tasks) =>
        match flow2.register (notify_batch_complete_node tasks) with
        | .error e => ⟨.error e, fr2, [], i⟩
        | .ok flow3 => ⟨.ok flow3, fr2, [], i⟩ := rfl
  rw [key]
  have hr : ∀ t, runTypeFlowId t ∈
      flowIds (⟨"Night Batch Flow", store, [prepare_batch_data_node (some p)]⟩ : AsyncFlow) ↔
      t ∈ ([] : List String) := by
    intro t
    simp only [flowIds, List.map_cons, List.map_nil, List.mem_singleton, List.not_mem_nil,
      iff_false]
    exact runTypeFlowId_ne_prepareBatch t
  rw [nbLoop_spec p.run_types _ _ _ [] hr]
  cases hfd : firstDup [] (p.run_types.map (·.type)) with
  | some t => rfl
  | none =>
    have hnot : (⟨"Night Batch Flow", store,
        prepare_batch_data_node (some p) ::
          p.run_types.map (fun c => execute_run_type_flow_node c.type)⟩ : AsyncFlow).register
          (notify_batch_complete_node (p.run_types.map (fun c => runTypeFlowId c.type))) =
        .ok ⟨"Night Batch Flow", store,
          prepare_batch_data_node (some p) ::
            p.run_types.map (fun c => execute_run_type_flow_node c.type) ++
          [notify_batch_complete_node (p.run_types.map (fun c => runTypeFlowId c.type))]⟩ := by
      apply register_of_not_mem
      intro h
      simp only [flowIds, List.map_cons, List.mem_cons] at h
      rcases h with h | h
      · exact notifyBatch_ne_prepareBatch h
      · rcases List.mem_map.mp h with ⟨n, hn, hx⟩
        rcases List.mem_map.mp hn with ⟨c, _, hc⟩
        apply runTypeFlowId_ne_notifyBatch c.type
        rw [← hc] at hx
        exact hx
    simp only [List.singleton_append, List.nil_append]
    rw [hnot]
    simp [nbNodes, List.append_assoc]

/-- With `params = None`, `build_run_type_flow` registers the prepare task and
then raises `AttributeError` at `params.get("libraries", [])` (line 34). -/
lemma build_run_type_flow_none (rt : String) (i : Nat) :
    build_run_type_flow none rt i =
      ⟨.error .noneGetAttributeError, ⟨none, some rt, none⟩, [], i⟩ := rfl

/-- With `params = None`, `build_night_batch_flow` registers the prepare task
and then raises `AttributeError` at `params.get("run_types", [])` (line 111). -/
lemma build_night_batch_flow_none (i : Nat) :
    build_night_batch_flow none i =
      ⟨.error .noneGetAttributeError, ⟨none, none, none⟩, [], i⟩ := rfl

/-! ## `firstDup` versus `Nodup` -/

lemma firstDup_eq_none_iff (vs : List String) :
    ∀ seen, (firstDup seen vs = none ↔ vs.Nodup ∧ ∀ v ∈ vs, v ∉ seen) := by
  induction vs with
  | nil => intro seen; simp [firstDup]
  | cons v rest ih =>
    intro seen
    by_cases hv : v ∈ seen
    · rw [firstDup, if_pos hv]
      constructor
      · intro h; exact absurd h (by simp)
      · rintro ⟨_, hall⟩
        exact absurd hv (hall v (List.mem_cons_self v rest))
    · rw [firstDup, if_neg hv, ih]
      constructor
      · rintro ⟨hnd, hall⟩
        refine ⟨List.nodup_cons.mpr ⟨?_, hnd⟩, ?_⟩
        · intro hvr
          exact hall v hvr (List.mem_cons_self v seen)
        · intro w hw
          rcases List.mem_cons.mp hw with rfl | hw'
          · exact hv
          · intro hws
            exact hall w hw' (List.mem_cons.mpr (Or.inr hws))
      · rintro ⟨hnd, hall⟩
        rcases List.nodup_cons.mp hnd with ⟨hvr, hnd'⟩
        refine ⟨hnd', ?_⟩
        intro w hw hwm
        rcases List.mem_cons.mp hwm with rfl | hws
        · exact hvr hw
        · exact hall w (List.mem_cons.mpr (Or.inr hw)) hws

lemma firstDup_some_spec {vs : List String} {v : String} :
    ∀ {seen}, firstDup seen vs = some v →
      (v ∈ seen ∧ v ∈ vs) ∨ 2 ≤ vs.countP (fun w => decide (w = v)) := by
  induction vs with
  | nil => intro seen h; exact absurd h (by simp [firstDup])
  | cons w rest ih =>
    intro seen h
    rw [firstDup] at h
    by_cases hw : w ∈ seen
    · rw [if_pos hw] at h
      have hv : w = v := Option.some.inj h
      subst hv
      exact Or.inl ⟨hw, List.mem_cons_self w rest⟩
    · rw [if_neg hw] at h
      rcases ih h with ⟨hvs, hvr⟩ | hc
      · rcases List.mem_cons.mp hvs with rfl | hvseen
        · refine Or.inr ?_
          rw [List.countP_cons, if_pos (by simp : (decide (v = v)) = true)]
          have h1 : 0 < rest.countP (fun x => decide (x = v)) :=
            List.countP_pos_iff.mpr ⟨v, hvr, by simp⟩
          omega
        · exact Or.inl ⟨hvseen, List.mem_cons.mpr (Or.inr hvr)⟩
      · refine Or.inr ?_
        rw [List.countP_cons]
        exact le_trans hc (Nat.le_add_right _ _)

lemma firstDup_ne_none_of_not_nodup {vs : List String} (h : ¬ vs.Nodup) :
    ∃ v, firstDup [] vs = some v := by
  cases hfd : firstDup [] vs with
  | some v => exact ⟨v, rfl⟩
  | none =>
    exact absurd ((firstDup_eq_none_iff vs []).mp hfd).1 h

/-! ## Acyclicity via a rank function -/

lemma acyclic_of_rank {f : AsyncFlow} (g : String → Nat)
    (h : ∀ a b, HasEdge f a b → g b < g a) : Acyclic f := by
  have key : ∀ a b, DepPath f a b → g b < g a := by
    intro a b hp
    induction hp with
    | single he => exact h _ _ he
    | cons he _ ih => exact lt_trans ih (h _ _ he)
  intro a hp
  exact absurd (key a a hp) (lt_irrefl _)

lemma mem_rtNodes {params : Option Params} {rt : String} {libs : List Library} {n : Node} :
    n ∈ rtNodes params rt libs ↔
      n = prepare_data_node params rt ∨
      (∃ l, l ∈ libs ∧ (n = build_library_image_node rt l ∨ n = run_library_pricing_node rt l)) ∨
      n = calculate_differences_node rt (libs.map (fun l => pricingId rt l.version)) ∨
      n = notify_complete_node rt := by
  simp [rtNodes, List.mem_flatMap]

lemma mem_nbNodes {params : Option Params} {cfgs : List RunTypeConfig} {n : Node} :
    n ∈ nbNodes params cfgs ↔
      n = prepare_batch_data_node params ∨
      (∃ c, c ∈ cfgs ∧ n = execute_run_type_flow_node c.type) ∨
      n = notify_batch_complete_node (cfgs.map (fun c => runTypeFlowId c.type)) := by
  simp [nbNodes, eq_comm]

lemma rtLevel_prepare (rt : String) (libs : List Library) :
    rtLevel rt libs (prepareDataId rt) = 0 := by
  rw [rtLevel, if_pos rfl]

lemma rtLevel_build {rt : String} {libs : List Library} {l : Library} (hl : l ∈ libs) :
    rtLevel rt libs (buildImageId rt l.version) = 1 := by
  rw [rtLevel, if_neg (buildImageId_ne_prepareDataId rt rt l.version),
    if_pos (List.any_eq_true.mpr ⟨l, hl, by simp⟩)]

lemma rtLevel_pricing {rt : String} {libs : List Library} {l : Library} (hl : l ∈ libs) :
    rtLevel rt libs (pricingId rt l.version) = 2 := by
  rw [rtLevel, if_neg (pricingId_ne_prepareDataId rt rt l.version),
    if_neg (fun hc => ?_), if_pos (List.any_eq_true.mpr ⟨l, hl, by simp⟩)]
  rcases List.any_eq_true.mp hc with ⟨l', _, hd⟩
  exact buildImageId_ne_pricingId rt rt l'.version l.version (of_decide_eq_true hd).symm

lemma rtLevel_diff (rt : String) (libs : List Library) :
    rtLevel rt libs (diffId rt) = 3 := by
  rw [rtLevel, if_neg (diffId_ne_prepareDataId rt rt), if_neg (fun hc => ?_),
    if_neg (fun hc => ?_), if_pos rfl]
  · rcases List.any_eq_true.mp hc with ⟨l', _, hd⟩
    exact diffId_ne_buildImageId rt rt l'.version (of_decide_eq_true hd)
  · rcases List.any_eq_true.mp hc with ⟨l', _, hd⟩
    exact diffId_ne_pricingId rt rt l'.version (of_decide_eq_true hd)

lemma rtLevel_notify (rt : String) (libs : List Library) :
    rtLevel rt libs (notifyId rt) = 4 := by
  rw [rtLevel, if_neg (notifyId_ne_prepareDataId rt rt), if_neg (fun hc => ?_),
    if_neg (fun hc => ?_), if_neg (notifyId_ne_diffId rt rt)]
  · rcases List.any_eq_true.mp hc with ⟨l', _, hd⟩
    exact notifyId_ne_buildImageId rt rt l'.version (of_decide_eq_true hd)
  · rcases List.any_eq_true.mp hc with ⟨l', _, hd⟩
    exact notifyId_ne_pricingId rt rt l'.version (of_decide_eq_true hd)

/-- Every direct dependency edge of a run-type flow strictly decreases
`rtLevel`. -/
lemma rt_hasEdge_level {params : Option Params} {rt : String} {libs : List Library}
    {f : AsyncFlow} (hf : f.nodes = rtNodes params rt libs) :
    ∀ a b, HasEdge f a b → rtLevel rt libs b < rtLevel rt libs a := by
  rintro a b ⟨n, hn, hid, hdep⟩
  rw [hf] at hn
  rcases mem_rtNodes.mp hn with h | ⟨l, hl, h | h⟩ | h | h
  · subst h
    exact absurd hdep (List.not_mem_nil b)
  · subst h
    subst hid
    have hb : b = prepareDataId rt := List.mem_singleton.mp hdep
    subst hb
    show rtLevel rt libs (prepareDataId rt) < rtLevel rt libs (buildImageId rt l.version)
    rw [rtLevel_prepare, rtLevel_build hl]
    exact Nat.zero_lt_one
  · subst h
    subst hid
    have hb : b = buildImageId rt l.version := List.mem_singleton.mp hdep
    subst hb
    show rtLevel rt libs (buildImageId rt l.version) < rtLevel rt libs (pricingId rt l.version)
    rw [rtLevel_build hl, rtLevel_pricing hl]
    omega
  · subst h
    subst hid
    rcases List.mem_map.mp hdep with ⟨l, hl, hb⟩
    subst hb
    show rtLevel rt libs (pricingId rt l.version) < rtLevel rt libs (diffId rt)
    rw [rtLevel_pricing hl, rtLevel_diff]
    omega
  · subst h
    subst hid
    have hb : b = diffId rt := List.mem_singleton.mp hdep
    subst hb
    show rtLevel rt libs (diffId rt) < rtLevel rt libs (notifyId rt)
    rw [rtLevel_diff, rtLevel_notify]
    omega

lemma nbLevel_prepare : nbLevel "prepare_batch_data" = 0 := by
  rw [nbLevel, if_pos rfl]

lemma nbLevel_runType (t : String) : nbLevel (runTypeFlowId t) = 1 := by
  rw [nbLevel, if_neg (runTypeFlowId_ne_prepareBatch t),
    if_neg (runTypeFlowId_ne_notifyBatch t)]

lemma nbLevel_notify : nbLevel "notify_batch_complete" = 2 := by
  rw [nbLevel, if_neg notifyBatch_ne_prepareBatch, if_pos rfl]

/-- Every direct dependency edge of the night-batch flow strictly decreases
`nbLevel`. -/
lemma nb_hasEdge_level {params : Option Params} {cfgs : List RunTypeConfig}
    {f : AsyncFlow} (hf : f.nodes = nbNodes params cfgs) :
    ∀ a b, HasEdge f a b → nbLevel b < nbLevel a := by
  rintro a b ⟨n, hn, hid, hdep⟩
  rw [hf] at hn
  rcases mem_nbNodes.mp hn with h | ⟨c, hc, h⟩ | h
  · subst h
    exact absurd hdep (List.not_mem_nil b)
  · subst h
    subst hid
    have hb : b = "prepare_batch_data" := List.mem_singleton.mp hdep
    subst hb
    show nbLevel "prepare_batch_data" < nbLevel (runTypeFlowId c.type)
    rw [nbLevel_prepare, nbLevel_runType]
    exact Nat.zero_lt_one
  · subst h
    subst hid
    rcases List.mem_map.mp hdep with ⟨c, hc, hb⟩
    subst hb
    show nbLevel (runTypeFlowId c.type) < nbLevel "notify_batch_complete"
    rw [nbLevel_runType, nbLevel_notify]
    omega

/-- Every dependency id of a run-type flow is a registered node id. -/
lemma rt_deps_exist {params : Option Params} {rt : String} {libs : List Library}
    {f : AsyncFlow} (hf : f.nodes = rtNodes params rt libs) :
    ∀ n ∈ f.nodes, ∀ d ∈ n.depends_on, ∃ m, m ∈ f.nodes ∧ m.id = d := by
  intro n hn d hd
  rw [hf] at hn ⊢
  rcases mem_rtNodes.mp hn with h | ⟨l, hl, h | h⟩ | h | h
  · subst h
    exact absurd hd (List.not_mem_nil d)
  · subst h
    have hb : d = prepareDataId rt := List.mem_singleton.mp hd
    subst hb
    exact ⟨prepare_data_node params rt, mem_rtNodes.mpr (Or.inl rfl), rfl⟩
  · subst h
    have hb : d = buildImageId rt l.version := List.mem_singleton.mp hd
    subst hb
    exact ⟨build_library_image_node rt l,
      mem_rtNodes.mpr (Or.inr (Or.inl ⟨l, hl, Or.inl rfl⟩)), rfl⟩
  · subst h
    rcases List.mem_map.mp hd with ⟨l, hl, hb⟩
    subst hb
    exact ⟨run_library_pricing_node rt l,
      mem_rtNodes.mpr (Or.inr (Or.inl ⟨l, hl, Or.inr rfl⟩)), rfl⟩
  · subst h
    have hb : d = diffId rt := List.mem_singleton.mp hd
    subst hb
    exact ⟨calculate_differences_node rt (libs.map (fun l => pricingId rt l.version)),
      mem_rtNodes.mpr (Or.inr (Or.inr (Or.inl rfl))), rfl⟩

/-- Every dependency id of the night-batch flow is a registered node id. -/
lemma nb_deps_exist {params : Option Params} {cfgs : List RunTypeConfig}
    {f : AsyncFlow} (hf : f.nodes = nbNodes params cfgs) :
    ∀ n ∈ f.nodes, ∀ d ∈ n.depends_on, ∃ m, m ∈ f.nodes ∧ m.id = d := by
  intro n hn d hd
  rw [hf] at hn ⊢
  rcases mem_nbNodes.mp hn with h | ⟨c, hc, h⟩ | h
  · subst h
    exact absurd hd (List.not_mem_nil d)
  · subst h
    have hb : d = "prepare_batch_data" := List.mem_singleton.mp hd
    subst hb
    exact ⟨prepare_batch_data_node params, mem_nbNodes.mpr (Or.inl rfl), rfl⟩
  · subst h
    rcases List.mem_map.mp hd with ⟨c, hc, hb⟩
    subst hb
    exact ⟨execute_run_type_flow_node c.type,
      mem_nbNodes.mpr (Or.inr (Or.inl ⟨c, hc, rfl⟩)), rfl⟩

/-! ## Both builders register nodes in dependency order (no forward reference) -/

lemma forwardRefFreeAux_append (l1 l2 : List Node) :
    ∀ seen, forwardRefFreeAux seen (l1 ++ l2) =
      (forwardRefFreeAux seen l1 && forwardRefFreeAux (seen ++ l1.map (·.id)) l2) := by
  induction l1 with
  | nil => intro seen; simp [forwardRefFreeAux]
  | cons n rest ih =>
    intro seen
    rw [List.cons_append, forwardRefFreeAux, forwardRefFreeAux, ih, Bool.and_assoc,
      List.map_cons,
      show (seen ++ [n.id]) ++ rest.map (·.id) = seen ++ (n.id :: rest.map (·.id)) from by
        rw [List.append_assoc]; rfl]

lemma frf_pairs (rt : String) (libs : List Library) :
    ∀ seen, prepareDataId rt ∈ seen →
      forwardRefFreeAux seen
        (libs.flatMap
          (fun l => [build_library_image_node rt l, run_library_pricing_node rt l])) = true := by
  induction libs with
  | nil => intro seen _; rfl
  | cons l rest ih =>
    intro seen hs
    rw [List.flatMap_cons, forwardRefFreeAux_append]
    rw [Bool.and_eq_true]
    constructor
    · simp [forwardRefFreeAux, build_library_image_node, run_library_pricing_node, hs]
    · exact ih _ (List.mem_append.mpr (Or.inl hs))

lemma frf_rtNodes (params : Option Params) (rt : String) (libs : List Library) :
    forwardRefFree (rtNodes params rt libs) = true := by
  rw [forwardRefFree, rtNodes, forwardRefFreeAux]
  rw [Bool.and_eq_true]
  refine ⟨rfl, ?_⟩
  rw [forwardRefFreeAux_append]
  rw [Bool.and_eq_true]
  constructor
  · exact frf_pairs rt libs _ (by simp [prepare_data_node])
  · rw [forwardRefFreeAux]
    rw [Bool.and_eq_true]
    constructor
    · apply List.all_eq_true.mpr
      intro d hd
      rcases List.mem_map.mp hd with ⟨l, hl, hb⟩
      subst hb
      apply decide_eq_true
      apply List.mem_append.mpr (Or.inr ?_)
      exact List.mem_map.mpr ⟨run_library_pricing_node rt l,
        List.mem_flatMap.mpr ⟨l, hl, by simp⟩, rfl⟩
    · rw [forwardRefFreeAux]
      rw [Bool.and_eq_true]
      refine ⟨?_, rfl⟩
      apply List.all_eq_true.mpr
      intro d hd
      have hb : d = diffId rt := List.mem_singleton.mp hd
      subst hb
      apply decide_eq_true
      exact List.mem_append.mpr (Or.inr (List.mem_singleton.mpr rfl))

lemma frf_rtfs (cfgs : List RunTypeConfig) :
    ∀ seen, ("prepare_batch_data" : String) ∈ seen →
      forwardRefFreeAux seen (cfgs.map (fun c => execute_run_type_flow_node c.type)) = true := by
  induction cfgs with
  | nil => intro seen _; rfl
  | cons c rest ih =>
    intro seen hs
    rw [List.map_cons, forwardRefFreeAux]
    rw [Bool.and_eq_true]
    constructor
    · simp [execute_run_type_flow_node, hs]
    · exact ih _ (List.mem_append.mpr (Or.inl hs))

lemma frf_nbNodes (params : Option Params) (cfgs : List RunTypeConfig) :
    forwardRefFree (nbNodes params cfgs) = true := by
  rw [forwardRefFree, nbNodes, forwardRefFreeAux]
  rw [Bool.and_eq_true]
  refine ⟨rfl, ?_⟩
  rw [forwardRefFreeAux_append]
  rw [Bool.and_eq_true]
  constructor
  · exact frf_rtfs cfgs _ (by simp [prepare_batch_data_node])
  · rw [forwardRefFreeAux]
    rw [Bool.and_eq_true]
    refine ⟨?_, rfl⟩
    apply List.all_eq_true.mpr
    intro d hd
    rcases List.mem_map.mp hd with ⟨c, hc, hb⟩
    subst hb
    apply decide_eq_true
    apply List.mem_append.mpr (Or.inr ?_)
    exact List.mem_map.mpr ⟨execute_run_type_flow_node c.type,
      List.mem_map.mpr ⟨c, hc, rfl⟩, rfl⟩

/-! ## Facts about valid traces -/

lemma statusIn_succeeded_iff {t : List Ev} {i : String} :
    statusIn t i = .succeeded ↔ Ev.finish i ∈ t := by
  unfold statusIn
  by_cases h1 : Ev.finish i ∈ t
  · simp [h1]
  · by_cases h2 : Ev.start i ∈ t <;> simp [h1, h2]

lemma statusIn_running_iff {t : List Ev} {i : String} :
    statusIn t i = .running ↔ (Ev.finish i ∉ t ∧ Ev.start i ∈ t) := by
  unfold statusIn
  by_cases h1 : Ev.finish i ∈ t
  · simp [h1]
  · by_cases h2 : Ev.start i ∈ t <;> simp [h1, h2]

lemma statusIn_pending_iff {t : List Ev} {i : String} :
    statusIn t i = .pending ↔ (Ev.finish i ∉ t ∧ Ev.start i ∉ t) := by
  unfold statusIn
  by_cases h1 : Ev.finish i ∈ t
  · simp [h1]
  · by_cases h2 : Ev.start i ∈ t <;> simp [h1, h2]

lemma validFrom_append_middle (f : AsyncFlow) (p : List Ev) :
    ∀ (past : List Ev) (e : Ev) (s : List Ev),
      validFrom f past (p ++ e :: s) = true → okEv f (past ++ p) e = true := by
  induction p with
  | nil =>
    intro past e s h
    rw [List.nil_append, validFrom, Bool.and_eq_true] at h
    simpa using h.1
  | cons x rest ih =>
    intro past e s h
    rw [List.cons_append, validFrom, Bool.and_eq_true] at h
    have h2 := ih (past ++ [x]) e s h.2
    simpa [List.append_assoc] using h2

/-- Every event of a valid trace is legal at its own position. -/
lemma validTrace_okEv {f : AsyncFlow} {t p s : List Ev} {e : Ev}
    (hv : validTrace f t = true) (ht : t = p ++ e :: s) : okEv f p e = true := by
  subst ht
  simpa using validFrom_append_middle f p [] e s hv

lemma okEv_start_elim {f : AsyncFlow} {past : List Ev} {i : String}
    (h : okEv f past (.start i) = true) :
    ∃ n, f.findNode i = some n ∧ statusIn past i = .pending ∧
      ∀ d ∈ n.depends_on, statusIn past d = .succeeded := by
  rw [okEv] at h
  cases hfn : f.findNode i with
  | none => rw [hfn] at h; exact absurd h (by simp)
  | some n =>
    rw [hfn] at h
    simp only [Option.elim] at h
    rw [nodeReady, Bool.and_eq_true] at h
    have hni : n.id = i := by
      unfold AsyncFlow.findNode at hfn
      have hp := List.find?_some (p := fun (m : Node) => decide (m.id = i)) hfn
      exact of_decide_eq_true hp
    refine ⟨n, rfl, ?_, ?_⟩
    · rw [← hni]
      exact of_decide_eq_true h.1
    · intro d hd
      exact of_decide_eq_true (List.all_eq_true.mp h.2 d hd)

lemma okEv_finish_elim {f : AsyncFlow} {past : List Ev} {i : String}
    (h : okEv f past (.finish i) = true) :
    statusIn past i = .running ∧ ∀ n ∈ f.nodes, nodeReady past n = false := by
  rw [okEv, Bool.and_eq_true] at h
  refine ⟨of_decide_eq_true h.1, ?_⟩
  intro n hn
  simpa using List.all_eq_true.mp h.2 n hn

/-- In a valid trace, any node finished within a prefix also started within
that prefix. -/
lemma start_mem_of_finish_mem {f : AsyncFlow} {t : List Ev} (hv : validTrace f t = true) :
    ∀ {q r : List Ev} {i : String}, t = q ++ r → Ev.finish i ∈ q → Ev.start i ∈ q := by
  intro q r i ht hm
  rcases List.append_of_mem hm with ⟨q1, q2, hq⟩
  subst hq
  have ht2 : t = q1 ++ .finish i :: (q2 ++ r) := by rw [ht]; simp [List.append_assoc]
  have hok := validTrace_okEv hv ht2
  have hrun := (okEv_finish_elim hok).1
  exact List.mem_append.mpr (Or.inl (statusIn_running_iff.mp hrun).2)

/-- In a valid trace, any node started within a prefix had all its
dependencies finished within that prefix. -/
lemma deps_finished_of_start_mem {f : AsyncFlow} {t : List Ev} (hv : validTrace f t = true)
    {q r : List Ev} {i : String} {n : Node}
    (ht : t = q ++ r) (hm : Ev.start i ∈ q) (hfn : f.findNode i = some n) :
    ∀ d ∈ n.depends_on, Ev.finish d ∈ q := by
  intro d hd
  rcases List.append_of_mem hm with ⟨q1, q2, hq⟩
  subst hq
  have ht2 : t = q1 ++ .start i :: (q2 ++ r) := by rw [ht]; simp [List.append_assoc]
  have hok := validTrace_okEv hv ht2
  rcases okEv_start_elim hok with ⟨n', hfn', _, hdeps⟩
  rw [hfn] at hfn'
  have hn : n = n' := Option.some.inj hfn'
  subst hn
  exact List.mem_append.mpr (Or.inl (statusIn_succeeded_iff.mp (hdeps d hd)))

/-- Eagerness (§4.2 step 3): when any `finish` is observed within a prefix,
every registered node with no dependencies has already been dispatched. -/
lemma zero_dep_started_of_finish {f : AsyncFlow} {t : List Ev} (hv : validTrace f t = true)
    {q r : List Ev} {i : String}
    (ht : t = q ++ r) (hm : Ev.finish i ∈ q) {n : Node} (hn : n ∈ f.nodes)
    (hdeps : n.depends_on = []) : Ev.start n.id ∈ q := by
  rcases List.append_of_mem hm with ⟨q1, q2, hq⟩
  subst hq
  have ht2 : t = q1 ++ .finish i :: (q2 ++ r) := by rw [ht]; simp [List.append_assoc]
  have hok := validTrace_okEv hv ht2
  have hnr := (okEv_finish_elim hok).2 n hn
  rw [nodeReady, hdeps] at hnr
  simp only [List.all_nil, Bool.and_true] at hnr
  have hnp : ¬ statusIn q1 n.id = .pending := by
    intro hc
    rw [hc] at hnr
    simp at hnr
  rcases not_and_or.mp (fun hc => hnp (statusIn_pending_iff.mpr hc)) with hfin | hstart
  · have hfin2 : Ev.finish n.id ∈ q1 := not_not.mp hfin
    have := start_mem_of_finish_mem hv (q := q1) (r := .finish i :: (q2 ++ r)) ht2 hfin2
    exact List.mem_append.mpr (Or.inl this)
  · exact List.mem_append.mpr (Or.inl (not_not.mp hstart))

/-! ## Node lookup in a built run-type flow -/

lemma rt_find?_pairs_none {rt : String} {libs : List Library} {x : String}
    (hx : ∀ l ∈ libs, x ≠ buildImageId rt l.version ∧ x ≠ pricingId rt l.version) :
    (libs.flatMap
      (fun l => [build_library_image_node rt l, run_library_pricing_node rt l])).find?
      (fun n => decide (n.id = x)) = none := by
  apply List.find?_eq_none.mpr
  intro n hn
  rcases List.mem_flatMap.mp hn with ⟨l, hl, hnl⟩
  rcases List.mem_cons.mp hnl with h | h
  · subst h
    simp only [decide_eq_true_eq]
    exact fun hc => (hx l hl).1 hc.symm
  · have h2 := List.mem_singleton.mp h
    subst h2
    simp only [decide_eq_true_eq]
    exact fun hc => (hx l hl).2 hc.symm

lemma rt_findNode_prepare {params : Option Params} {rt : String} {libs : List Library}
    {f : AsyncFlow} (hf : f.nodes = rtNodes params rt libs) :
    f.findNode (prepareDataId rt) = some (prepare_data_node params rt) := by
  unfold AsyncFlow.findNode
  rw [hf, rtNodes]
  exact List.find?_cons_of_pos _ (by simp [prepare_data_node])

lemma rt_findNode_diff {params : Option Params} {rt : String} {libs : List Library}
    {f : AsyncFlow} (hf : f.nodes = rtNodes params rt libs) :
    f.findNode (diffId rt) =
      some (calculate_differences_node rt (libs.map (fun l => pricingId rt l.version))) := by
  unfold AsyncFlow.findNode
  rw [hf, rtNodes]
  rw [List.find?_cons_of_neg _ (by
    simp only [decide_eq_true_eq, prepare_data_node]
    exact fun hc => diffId_ne_prepareDataId rt rt hc.symm)]
  rw [List.find?_append, rt_find?_pairs_none (fun l hl =>
    ⟨diffId_ne_buildImageId rt rt l.version, diffId_ne_pricingId rt rt l.version⟩)]
  rw [Option.none_or]
  exact List.find?_cons_of_pos _ (by simp [calculate_differences_node])

lemma rt_findNode_notify {params : Option Params} {rt : String} {libs : List Library}
    {f : AsyncFlow} (hf : f.nodes = rtNodes params rt libs) :
    f.findNode (notifyId rt) = some (notify_complete_node rt) := by
  unfold AsyncFlow.findNode
  rw [hf, rtNodes]
  rw [List.find?_cons_of_neg _ (by
    simp only [decide_eq_true_eq, prepare_data_node]
    exact fun hc => notifyId_ne_prepareDataId rt rt hc.symm)]
  rw [List.find?_append, rt_find?_pairs_none (fun l hl =>
    ⟨notifyId_ne_buildImageId rt rt l.version, notifyId_ne_pricingId rt rt l.version⟩)]
  rw [Option.none_or]
  rw [List.find?_cons_of_neg _ (by
    simp only [decide_eq_true_eq, calculate_differences_node]
    exact fun hc => notifyId_ne_diffId rt rt hc.symm)]
  exact List.find?_cons_of_pos _ (by simp [notify_complete_node])

lemma rt_findNode_pricing {params : Option Params} {rt : String} {libs : List Library}
    (hnd : (libs.map (·.version)).Nodup)
    {f : AsyncFlow} (hf : f.nodes = rtNodes params rt libs) {l : Library} (hl : l ∈ libs) :
    f.findNode (pricingId rt l.version) = some (run_library_pricing_node rt l) := by
  unfold AsyncFlow.findNode
  rw [hf, rtNodes]
  rw [List.find?_cons_of_neg _ (by
    simp only [decide_eq_true_eq, prepare_data_node]
    exact fun hc => pricingId_ne_prepareDataId rt rt l.version hc.symm)]
  rcases List.append_of_mem hl with ⟨l1, l2, hsplit⟩
  subst hsplit
  have hvnot : l.version ∉ l1.map (·.version) := by
    intro hc
    rw [List.map_append, List.map_cons] at hnd
    rcases List.nodup_append.mp hnd with ⟨_, _, hdisj⟩
    exact (List.disjoint_left.mp hdisj hc) (List.mem_cons_self _ _)
  rw [List.flatMap_append, List.flatMap_cons, List.find?_append]
  rw [List.find?_append, rt_find?_pairs_none (fun l' hl' =>
    ⟨fun hc => buildImageId_ne_pricingId rt rt l'.version l.version hc.symm, ?_⟩)]
  · rw [Option.none_or]
    rw [List.cons_append, List.find?_cons_of_neg _ (by
      simp only [decide_eq_true_eq, build_library_image_node]
      exact fun hc => buildImageId_ne_pricingId rt rt l.version l.version hc)]
    rw [List.cons_append, List.find?_cons_of_pos _ (by simp [run_library_pricing_node])]
    rfl
  · intro hc
    apply hvnot
    rw [pricingId_inj hc]
    exact List.mem_map.mpr ⟨l', hl', rfl⟩

/-! ## Claim theorems -/

/-- C1: the claim states that each registered subflow callable captures its
own iteration's values — the callable under `build_{run_type}_{version}_image`
returns `build_firebird_image_flow("{run_type}_{version}")` for its own
library's version, and the night-batch callable under `run_{run_type}_flow`
calls `build_run_type_flow(params, run_type)` for its own run type.  The code
violates this: Python closures capture the loop *variable*, so after the
build completes every callable observes the final loop value.  Evaluated at
the failing input (`libraries = [1.0, 2.0]`, `run_types = [ftb, hpl]`): the
callable stored under `build_ftb_1.0_image` returns
`build_firebird_image_flow("ftb_2.0")` — not `"ftb_1.0"` as the node's own id
and display name promise — the pricing callable returns
`build_pricing_flow("ftb_2.0_pricing")`, and the callable stored under
`run_ftb_flow` calls `build_run_type_flow(params, "hpl")`. -/
theorem C1_subflow_callables_observe_final_loop_values :
    ((flowOf (build_run_type_flow (some sampleParams) "ftb" 0)).findNode "build_ftb_1.0_image"
      = some (build_library_image_node "ftb" ⟨"1.0"⟩)) ∧
    invokeSub (build_run_type_flow (some sampleParams) "ftb" 0).frame .build_library_image
      = .ok (.firebirdImageFlow "ftb_2.0", [.callBuildFirebirdImageFlow "ftb_2.0"]) ∧
    ("ftb_2.0" : String) ≠ "ftb_1.0" ∧
    invokeSub (build_run_type_flow (some sampleParams) "ftb" 0).frame .run_library_pricing
      = .ok (.pricingFlow "ftb_2.0_pricing", [.callBuildPricingFlow "ftb_2.0_pricing"]) ∧
    ((flowOf (build_night_batch_flow (some sampleParams) 0)).findNode "run_ftb_flow"
      = some (execute_run_type_flow_node "ftb")) ∧
    invokeSub (build_night_batch_flow (some sampleParams) 0).frame .execute_run_type_flow
      = .ok (.runTypeFlow (some sampleParams) "hpl", [.callBuildRunTypeFlow "hpl"]) ∧
    ("hpl" : String) ≠ "ftb" :=
  ⟨by decide, by decide, by decide, by decide, by decide, by decide, by decide⟩

/-- C4 counterexample: the claim asserts that somewhere in the build sequences
of `build_run_type_flow` and `build_night_batch_flow` a registration's
`depends_on` references an id not yet registered at the time of the call.  At
the example input (and in fact at every input) no such forward reference
exists: `forwardRefFree` replays the
registration sequence and checks every dependency against the ids registered
so far. -/
theorem C4_no_forward_reference_at_example :
    forwardRefFree (flowOf (build_run_type_flow (some sampleParams) "ftb" 0)).nodes = true ∧
    forwardRefFree (flowOf (build_night_batch_flow (some sampleParams) 0)).nodes = true :=
  ⟨by decide, by decide⟩

/-- C4 amended: in every build sequence performed by `build_run_type_flow` and
`build_night_batch_flow`, every registration's `depends_on` references only
node ids already registered in the flow at the time of that registration call
(the builders register nodes in dependency order; there is no forward
reference, so even eager validation at registration time would accept them). -/
theorem C4_registration_in_dependency_order (params : Option Params) (rt : String) (i : Nat) :
    (∀ f, (build_run_type_flow params rt i).result = .ok f →
      forwardRefFree f.nodes = true) ∧
    (∀ f, (build_night_batch_flow params i).result = .ok f →
      forwardRefFree f.nodes = true) := by
  constructor
  · intro f hf
    cases params with
    | none =>
      rw [build_run_type_flow_none] at hf
      exact absurd hf (by simp)
    | some p =>
      rw [build_run_type_flow_some] at hf
      cases hfd : firstDup [] (p.libraries.map (·.version)) with
      | some v =>
        rw [hfd] at hf
        exact absurd hf (by simp)
      | none =>
        rw [hfd] at hf
        have heq := Except.ok.inj hf
        rw [← heq]
        exact frf_rtNodes (some p) rt p.libraries
  · intro f hf
    cases params with
    | none =>
      rw [build_night_batch_flow_none] at hf
      exact absurd hf (by simp)
    | some p =>
      rw [build_night_batch_flow_some] at hf
      cases hfd : firstDup [] (p.run_types.map (·.type)) with
      | some t =>
        rw [hfd] at hf
        exact absurd hf (by simp)
      | none =>
        rw [hfd] at hf
        have heq := Except.ok.inj hf
        rw [← heq]
        exact frf_nbNodes (some p) p.run_types

/-- Witness for `C4_registration_in_dependency_order` at the example input. -/
theorem C4_registration_in_dependency_order_witness :
    forwardRefFree (flowOf (build_run_type_flow (some sampleParams) "ftb" 1)).nodes = true ∧
    forwardRefFree (flowOf (build_night_batch_flow (some sampleParams) 1)).nodes = true :=
  ⟨(C4_registration_in_dependency_order (some sampleParams) "ftb" 1).1 _ (by decide),
   (C4_registration_in_dependency_order (some sampleParams) "ftb" 1).2 _ (by decide)⟩

/-- C5: two independent implications, each under its own condition alone.
If `params["libraries"]` contains two entries with equal version, the
generated `build_{run_type}_{version}_image` id collides and
`build_run_type_flow` fails with `DuplicateNodeError` at the second
registration of that id — whatever `params["run_types"]` holds; and if
`params["run_types"]` contains two entries with equal type,
`build_night_batch_flow` fails with `DuplicateNodeError` on the collided
`run_{run_type}_flow` id — whatever `params["libraries"]` holds. -/
theorem C5_duplicate_keys_fail_with_duplicate_node_error
    (p : Params) (rt : String) (i : Nat) :
    (¬ (p.libraries.map (·.version)).Nodup →
      ∃ v, 2 ≤ (p.libraries.map (·.version)).countP (fun w => decide (w = v)) ∧
        (build_run_type_flow (some p) rt i).result
          = .error (.duplicateNode (buildImageId rt v))) ∧
    (¬ (p.run_types.map (·.type)).Nodup →
      ∃ t, 2 ≤ (p.run_types.map (·.type)).countP (fun w => decide (w = t)) ∧
        (build_night_batch_flow (some p) i).result
          = .error (.duplicateNode (runTypeFlowId t))) := by
  constructor
  · intro h1
    rcases firstDup_ne_none_of_not_nodup h1 with ⟨v, hfd⟩
    refine ⟨v, ?_, ?_⟩
    · rcases firstDup_some_spec hfd with ⟨hs, _⟩ | hc
      · exact absurd hs (List.not_mem_nil v)
      · exact hc
    · rw [build_run_type_flow_some, hfd]
  · intro h2
    rcases firstDup_ne_none_of_not_nodup h2 with ⟨t, hfd⟩
    refine ⟨t, ?_, ?_⟩
    · rcases firstDup_some_spec hfd with ⟨hs, _⟩ | hc
      · exact absurd hs (List.not_mem_nil t)
      · exact hc
    · rw [build_night_batch_flow_some, hfd]

/-- Witness for `C5_duplicate_keys_fail_with_duplicate_node_error`,
exercising each condition on its own: duplicate versions with pairwise
distinct run types, and duplicate run types with pairwise distinct
versions. -/
theorem C5_duplicate_keys_fail_witness :
    (∃ v, 2 ≤ ((⟨[⟨"1.0"⟩, ⟨"1.0"⟩], [⟨"ftb"⟩, ⟨"hpl"⟩]⟩ : Params).libraries.map
        (·.version)).countP (fun w => decide (w = v)) ∧
      (build_run_type_flow (some ⟨[⟨"1.0"⟩, ⟨"1.0"⟩], [⟨"ftb"⟩, ⟨"hpl"⟩]⟩) "ftb" 0).result
        = .error (.duplicateNode (buildImageId "ftb" v))) ∧
    (∃ t, 2 ≤ ((⟨[⟨"1.0"⟩, ⟨"2.0"⟩], [⟨"ftb"⟩, ⟨"ftb"⟩]⟩ : Params).run_types.map
        (·.type)).countP (fun w => decide (w = t)) ∧
      (build_night_batch_flow (some ⟨[⟨"1.0"⟩, ⟨"2.0"⟩], [⟨"ftb"⟩, ⟨"ftb"⟩]⟩) 0).result
        = .error (.duplicateNode (runTypeFlowId t))) :=
  ⟨(C5_duplicate_keys_fail_with_duplicate_node_error
      ⟨[⟨"1.0"⟩, ⟨"1.0"⟩], [⟨"ftb"⟩, ⟨"hpl"⟩]⟩ "ftb" 0).1 (by decide),
   (C5_duplicate_keys_fail_with_duplicate_node_error
      ⟨[⟨"1.0"⟩, ⟨"2.0"⟩], [⟨"ftb"⟩, ⟨"ftb"⟩]⟩ "ftb" 0).2 (by decide)⟩

/-- C6: evaluating either builder only registers nodes — pure graph mutations
per §4.1 — and performs no effect: no `ctx.push`, no `ctx.log`, and no call to
`build_firebird_image_flow`, `build_pricing_flow` or a nested
`build_run_type_flow` (all of which would appear in the build's effect trace,
as they do in the traces of `runTaskBody` and `invokeSub`). -/
theorem C6_build_phase_registers_without_executing_callables :
    ∀ (params : Option Params) (rt : String) (i : Nat),
      (build_run_type_flow params rt i).effects = [] ∧
      (build_night_batch_flow params i).effects = [] := by
  intro params rt i
  constructor
  · cases params with
    | none => rfl
    | some p =>
      rw [build_run_type_flow_some]
      cases hfd : firstDup [] (p.libraries.map (·.version)) <;> rfl
  · cases params with
    | none => rfl
    | some p =>
      rw [build_night_batch_flow_some]
      cases hfd : firstDup [] (p.run_types.map (·.type)) <;> rfl

/-- C8: the builders are deterministic and cache-free — two invocations on
equal arguments return equal build results (same node ids, display names,
`depends_on` lists, subflow params), while allocating distinct `AsyncFlow`
objects (the allocation identities are the distinct `objId`s of the two
calls) — and every flow either builder returns is bound to the shared
module-level `store`. -/
theorem C8_builders_deterministic_fresh_shared_store
    (params : Option Params) (rt : String) (i j : Nat) (hij : i ≠ j) :
    (build_run_type_flow params rt i).result = (build_run_type_flow params rt j).result ∧
    (build_night_batch_flow params i).result = (build_night_batch_flow params j).result ∧
    (build_run_type_flow params rt i).objId ≠ (build_run_type_flow params rt j).objId ∧
    (build_night_batch_flow params i).objId ≠ (build_night_batch_flow params j).objId ∧
    (∀ f, (build_run_type_flow params rt i).result = .ok f → f.store = store) ∧
    (∀ f, (build_night_batch_flow params i).result = .ok f → f.store = store) := by
  have hrt : ∀ k, (build_run_type_flow params rt k).objId = k := by
    intro k
    cases params with
    | none => rfl
    | some p =>
      rw [build_run_type_flow_some]
      cases hfd : firstDup [] (p.libraries.map (·.version)) <;> rfl
  have hnb : ∀ k, (build_night_batch_flow params k).objId = k := by
    intro k
    cases params with
    | none => rfl
    | some p =>
      rw [build_night_batch_flow_some]
      cases hfd : firstDup [] (p.run_types.map (·.type)) <;> rfl
  refine ⟨?_, ?_, ?_, ?_, ?_, ?_⟩
  · cases params with
    | none => rfl
    | some p =>
      rw [build_run_type_flow_some, build_run_type_flow_some]
      cases hfd : firstDup [] (p.libraries.map (·.version)) <;> rfl
  · cases params with
    | none => rfl
    | some p =>
      rw [build_night_batch_flow_some, build_night_batch_flow_some]
      cases hfd : firstDup [] (p.run_types.map (·.type)) <;> rfl
  · rw [hrt i, hrt j]; exact hij
  · rw [hnb i, hnb j]; exact hij
  · intro f hf
    cases params with
    | none =>
      rw [build_run_type_flow_none] at hf
      exact absurd hf (by simp)
    | some p =>
      rw [build_run_type_flow_some] at hf
      cases hfd : firstDup [] (p.libraries.map (·.version)) with
      | some v => rw [hfd] at hf; exact absurd hf (by simp)
      | none =>
        rw [hfd] at hf
        have heq := Except.ok.inj hf
        rw [← heq]
  · intro f hf
    cases params with
    | none =>
      rw [build_night_batch_flow_none] at hf
      exact absurd hf (by simp)
    | some p =>
      rw [build_night_batch_flow_some] at hf
      cases hfd : firstDup [] (p.run_types.map (·.type)) with
      | some t => rw [hfd] at hf; exact absurd hf (by simp)
      | none =>
        rw [hfd] at hf
        have heq := Except.ok.inj hf
        rw [← heq]

/-- Witness for `C8_builders_deterministic_fresh_shared_store` at the example
input with allocation identities `0 ≠ 1`. -/
theorem C8_builders_deterministic_witness :
    (build_run_type_flow (some sampleParams) "ftb" 0).result
        = (build_run_type_flow (some sampleParams) "ftb" 1).result ∧
    (build_night_batch_flow (some sampleParams) 0).result
        = (build_night_batch_flow (some sampleParams) 1).result ∧
    (build_run_type_flow (some sampleParams) "ftb" 0).objId
        ≠ (build_run_type_flow (some sampleParams) "ftb" 1).objId ∧
    (build_night_batch_flow (some sampleParams) 0).objId
        ≠ (build_night_batch_flow (some sampleParams) 1).objId ∧
    (∀ f, (build_run_type_flow (some sampleParams) "ftb" 0).result = .ok f →
      f.store = store) ∧
    (∀ f, (build_night_batch_flow (some sampleParams) 0).result = .ok f →
      f.store = store) :=
  C8_builders_deterministic_fresh_shared_store (some sampleParams) "ftb" 0 1 (by decide)

/-- C9: calling `build_night_batch_flow` with its default `params = None`
fails during the build phase — no flow is returned, and the empty effect
trace shows no node was executed — because `params.get("run_types", [])` is
evaluated on `None` at the top level of the builder and raises
`AttributeError`; `build_run_type_flow` on `None` fails the same way at
`params.get("libraries", [])`, so the builders only complete when `params`
is a dict. -/
theorem C9_none_params_fails_during_build :
    ∀ (i : Nat),
      (build_night_batch_flow none i).result = .error .noneGetAttributeError ∧
      (build_night_batch_flow none i).effects = [] ∧
      ∀ (rt : String),
        (build_run_type_flow none rt i).result = .error .noneGetAttributeError ∧
        (build_run_type_flow none rt i).effects = [] :=
  fun _ => ⟨rfl, rfl, fun _ => ⟨rfl, rfl⟩⟩

/-- C3: for every `params` dict and run type, the dependency graph of any
flow returned by `build_run_type_flow` or `build_night_batch_flow` satisfies
the Flow invariant: every id in any node's `depends_on` list is a registered
node id of the same flow, and the dependency relation is acyclic. -/
theorem C3_flow_invariant_holds (params : Option Params) (rt : String) (i : Nat) :
    (∀ f, (build_run_type_flow params rt i).result = .ok f →
      (∀ n ∈ f.nodes, ∀ d ∈ n.depends_on, ∃ m, m ∈ f.nodes ∧ m.id = d) ∧ Acyclic f) ∧
    (∀ f, (build_night_batch_flow params i).result = .ok f →
      (∀ n ∈ f.nodes, ∀ d ∈ n.depends_on, ∃ m, m ∈ f.nodes ∧ m.id = d) ∧ Acyclic f) := by
  constructor
  · intro f hf
    cases params with
    | none =>
      rw [build_run_type_flow_none] at hf
      exact absurd hf (by simp)
    | some p =>
      rw [build_run_type_flow_some] at hf
      cases hfd : firstDup [] (p.libraries.map (·.version)) with
      | some v =>
        rw [hfd] at hf
        exact absurd hf (by simp)
      | none =>
        rw [hfd] at hf
        have heq := Except.ok.inj hf
        have hnodes : f.nodes = rtNodes (some p) rt p.libraries := by rw [← heq]
        exact ⟨rt_deps_exist hnodes,
          acyclic_of_rank (rtLevel rt p.libraries) (rt_hasEdge_level hnodes)⟩
  · intro f hf
    cases params with
    | none =>
      rw [build_night_batch_flow_none] at hf
      exact absurd hf (by simp)
    | some p =>
      rw [build_night_batch_flow_some] at hf
      cases hfd : firstDup [] (p.run_types.map (·.type)) with
      | some t =>
        rw [hfd] at hf
        exact absurd hf (by simp)
      | none =>
        rw [hfd] at hf
        have heq := Except.ok.inj hf
        have hnodes : f.nodes = nbNodes (some p) p.run_types := by rw [← heq]
        exact ⟨nb_deps_exist hnodes, acyclic_of_rank nbLevel (nb_hasEdge_level hnodes)⟩

/-- Witness for `C3_flow_invariant_holds` at the example input. -/
theorem C3_flow_invariant_holds_witness :
    ((∀ n ∈ (flowOf (build_run_type_flow (some sampleParams) "ftb" 0)).nodes,
        ∀ d ∈ n.depends_on,
        ∃ m, m ∈ (flowOf (build_run_type_flow (some sampleParams) "ftb" 0)).nodes ∧
          m.id = d) ∧
      Acyclic (flowOf (build_run_type_flow (some sampleParams) "ftb" 0))) ∧
    ((∀ n ∈ (flowOf (build_night_batch_flow (some sampleParams) 0)).nodes,
        ∀ d ∈ n.depends_on,
        ∃ m, m ∈ (flowOf (build_night_batch_flow (some sampleParams) 0)).nodes ∧
          m.id = d) ∧
      Acyclic (flowOf (build_night_batch_flow (some sampleParams) 0))) :=
  ⟨(C3_flow_invariant_holds (some sampleParams) "ftb" 0).1 _ (by decide),
   (C3_flow_invariant_holds (some sampleParams) "ftb" 0).2 _ (by decide)⟩

/-! ## Context-state semantics of the prepare bodies -/

lemma get_log (c : Context) (m : LogMsg) (k : String) : (c.log m).get k = c.get k := rfl

lemma get_push_two (c : Context) (k1 k2 : String) (v1 v2 : Value) (k : String) :
    (c.push [(k1, v1), (k2, v2)]).get k =
      if k = k2 then some v2 else if k = k1 then some v1 else c.get k := by
  have hrev : (c.push [(k1, v1), (k2, v2)]).state.reverse
      = (k2, v2) :: (k1, v1) :: c.state.reverse := by
    show (c.state ++ [(k1, v1), (k2, v2)]).reverse = _
    rw [List.reverse_append]
    rfl
  unfold Context.get
  rw [hrev]
  by_cases h2 : k = k2
  · subst h2
    simp
  · by_cases h1 : k = k1
    · subst h1
      simp [Ne.symm h2]
      rw [if_neg h2]
    · simp [Ne.symm h1, Ne.symm h2]
      rw [if_neg h2, if_neg h1]

/-- C7: when the `prepare_{run_type}_data` body returns normally on a context,
the context's state equals its prior state merged with exactly the two keys
`"libraries"` (bound to `params.get("libraries", [])`) and `"run_type"`
(bound to `run_type`) — overwriting those keys if present and leaving every
other key unchanged; analogously `prepare_batch_data` merges exactly the keys
`"run_types"` and `"libraries"` from `params`. -/
theorem C7_prepare_bodies_merge_exactly_their_keys
    (p : Params) (rt : String) (c : Context) {c' d' : Context} {e1 e2 : List Effect}
    (h1 : runTaskBody (.prepare_data (some p) rt) c = .ok (c', e1))
    (h2 : runTaskBody (.prepare_batch_data (some p)) c = .ok (d', e2)) :
    (∀ k, c'.get k =
      if k = "run_type" then some (.str rt)
      else if k = "libraries" then some (.libs p.libraries)
      else c.get k) ∧
    (∀ k, d'.get k =
      if k = "libraries" then some (.libs p.libraries)
      else if k = "run_types" then some (.runTypes p.run_types)
      else c.get k) := by
  constructor
  · have hpair := Except.ok.inj h1
    have hc : c' = ((c.log (.preparingData rt)).log
        (.foundLibraries p.libraries.length (p.libraries.map (·.version)))).push
        [("libraries", .libs p.libraries), ("run_type", .str rt)] :=
      (congrArg Prod.fst hpair).symm
    intro k
    rw [hc, get_push_two, get_log, get_log]
  · have hpair := Except.ok.inj h2
    have hd : d' = (((c.log .preparingBatch).log
        (.batchRunTypes (p.run_types.map (·.type)))).log
        (.batchLibraries (p.libraries.map (·.version)))).push
        [("run_types", .runTypes p.run_types), ("libraries", .libs p.libraries)] :=
      (congrArg Prod.fst hpair).symm
    intro k
    rw [hd, get_push_two, get_log, get_log, get_log]

/-- Witness for `C7_prepare_bodies_merge_exactly_their_keys`: a context that
already binds `"run_type"` (overwritten) and `"other"` (untouched). -/
theorem C7_prepare_bodies_merge_witness :
    (∀ k, Context.get
        ⟨[("other", .str "x"), ("run_type", .str "old"),
          ("libraries", .libs [⟨"1.0"⟩, ⟨"2.0"⟩]), ("run_type", .str "ftb")],
         [.preparingData "ftb", .foundLibraries 2 ["1.0", "2.0"]]⟩ k =
      if k = "run_type" then some (.str "ftb")
      else if k = "libraries" then some (.libs [⟨"1.0"⟩, ⟨"2.0"⟩])
      else Context.get ⟨[("other", .str "x"), ("run_type", .str "old")], []⟩ k) ∧
    (∀ k, Context.get
        ⟨[("other", .str "x"), ("run_type", .str "old"),
          ("run_types", .runTypes [⟨"ftb"⟩, ⟨"hpl"⟩]), ("libraries", .libs [⟨"1.0"⟩, ⟨"2.0"⟩])],
         [.preparingBatch, .batchRunTypes ["ftb", "hpl"], .batchLibraries ["1.0", "2.0"]]⟩ k =
      if k = "libraries" then some (.libs [⟨"1.0"⟩, ⟨"2.0"⟩])
      else if k = "run_types" then some (.runTypes [⟨"ftb"⟩, ⟨"hpl"⟩])
      else Context.get ⟨[("other", .str "x"), ("run_type", .str "old")], []⟩ k) :=
  C7_prepare_bodies_merge_exactly_their_keys sampleParams "ftb"
    ⟨[("other", .str "x"), ("run_type", .str "old")], []⟩ rfl rfl

lemma findNode_mem {f : AsyncFlow} {i : String} {n : Node} (h : f.findNode i = some n) :
    n ∈ f.nodes ∧ n.id = i := by
  unfold AsyncFlow.findNode at h
  refine ⟨List.mem_of_find?_eq_some h, ?_⟩
  have hp := List.find?_some (p := fun (m : Node) => decide (m.id = i)) h
  exact of_decide_eq_true hp

/-- C2: for every `params` whose libraries have pairwise distinct versions and
every `run_type`, `build_run_type_flow` returns the flow whose nodes are
exactly `rtNodes`: `prepare_{rt}_data` with no dependency; for each library
with version `v`, `build_{rt}_{v}_image` depending only on the prepare node
and `run_{rt}_{v}_pricing` depending only on that build node;
`calculate_{rt}_diff` depending exactly on all the pricing ids; and
`notify_{rt}_complete` depending only on the diff node.  Consequently, in
every valid trace of a run of this graph, the diff node starts only after
every pricing node finished (Succeeded), and the notify node starts last:
every other registered node started before it and no start event follows
its start. -/
theorem C2_run_type_flow_graph_and_ordering
    (p : Params) (rt : String) (i : Nat)
    (hnd : (p.libraries.map (·.version)).Nodup) :
    ∃ f, (build_run_type_flow (some p) rt i).result = .ok f ∧
      f.nodes = rtNodes (some p) rt p.libraries ∧
      (∀ t q s, validTrace f t = true → t = q ++ Ev.start (diffId rt) :: s →
        ∀ l ∈ p.libraries, Ev.finish (pricingId rt l.version) ∈ q) ∧
      (∀ t q s, validTrace f t = true → t = q ++ Ev.start (notifyId rt) :: s →
        (∀ n ∈ f.nodes, n.id ≠ notifyId rt → Ev.start n.id ∈ q) ∧
        (∀ j, Ev.start j ∉ s)) := by
  have hfd : firstDup [] (p.libraries.map (·.version)) = none :=
    (firstDup_eq_none_iff _ []).mpr ⟨hnd, by simp⟩
  have hfl : (⟨rt ++ "_flow", store, rtNodes (some p) rt p.libraries⟩ : AsyncFlow).nodes
      = rtNodes (some p) rt p.libraries := rfl
  refine ⟨⟨rt ++ "_flow", store, rtNodes (some p) rt p.libraries⟩, ?_, rfl, ?_, ?_⟩
  · rw [build_run_type_flow_some, hfd]
  · intro t q s hv ht l hl
    have hok := validTrace_okEv hv ht
    rcases okEv_start_elim hok with ⟨n, hfn, _, hdeps⟩
    rw [rt_findNode_diff hfl] at hfn
    have hn := Option.some.inj hfn
    have hd : pricingId rt l.version ∈ n.depends_on := by
      rw [← hn]
      exact List.mem_map.mpr ⟨l, hl, rfl⟩
    exact statusIn_succeeded_iff.mp (hdeps _ hd)
  · intro t q s hv ht
    have hok := validTrace_okEv hv ht
    rcases okEv_start_elim hok with ⟨n0, hfn0, hpend0, hdeps0⟩
    rw [rt_findNode_notify hfl] at hfn0
    have hn0 := Option.some.inj hfn0
    have hfin_diff : Ev.finish (diffId rt) ∈ q := by
      have hd : diffId rt ∈ n0.depends_on := by
        rw [← hn0]
        exact List.mem_singleton.mpr rfl
      exact statusIn_succeeded_iff.mp (hdeps0 _ hd)
    have hstart_diff : Ev.start (diffId rt) ∈ q :=
      start_mem_of_finish_mem hv ht hfin_diff
    have hfinp : ∀ l ∈ p.libraries, Ev.finish (pricingId rt l.version) ∈ q := by
      intro l hl
      have hq := deps_finished_of_start_mem hv ht hstart_diff (rt_findNode_diff hfl)
      exact hq _ (List.mem_map.mpr ⟨l, hl, rfl⟩)
    have hall : ∀ n ∈ rtNodes (some p) rt p.libraries,
        n.id ≠ notifyId rt → Ev.start n.id ∈ q := by
      intro n hn hne
      rcases mem_rtNodes.mp hn with h | ⟨l, hl, h | h⟩ | h | h
      · subst h
        exact zero_dep_started_of_finish hv ht hfin_diff
          (by rw [show (⟨rt ++ "_flow", store, rtNodes (some p) rt p.libraries⟩ :
            AsyncFlow).nodes = rtNodes (some p) rt p.libraries from rfl]; exact hn) rfl
      · subst h
        have hstartp : Ev.start (pricingId rt l.version) ∈ q :=
          start_mem_of_finish_mem hv ht (hfinp l hl)
        have hfinb : Ev.finish (buildImageId rt l.version) ∈ q := by
          have hq := deps_finished_of_start_mem hv ht hstartp
            (rt_findNode_pricing hnd hfl hl)
          exact hq _ (List.mem_singleton.mpr rfl)
        exact start_mem_of_finish_mem hv ht hfinb
      · subst h
        exact start_mem_of_finish_mem hv ht (hfinp l hl)
      · subst h
        exact hstart_diff
      · subst h
        exact absurd rfl hne
    refine ⟨hall, ?_⟩
    intro j hj
    rcases List.append_of_mem hj with ⟨s1, s2, hs⟩
    subst hs
    have ht2 : t = (q ++ Ev.start (notifyId rt) :: s1) ++ Ev.start j :: s2 := by
      rw [ht]
      simp [List.append_assoc]
    have hok2 := validTrace_okEv hv ht2
    rcases okEv_start_elim hok2 with ⟨n, hfn, hpend, _⟩
    rcases findNode_mem hfn with ⟨hmem, hnid⟩
    rcases statusIn_pending_iff.mp hpend with ⟨_, hnostart⟩
    by_cases hj2 : j = notifyId rt
    · subst hj2
      exact hnostart (List.mem_append.mpr (Or.inr (List.mem_cons_self _ _)))
    · have hs0 : Ev.start n.id ∈ q := hall n hmem (by rw [hnid]; exact hj2)
      rw [hnid] at hs0
      exact hnostart (List.mem_append.mpr (Or.inl hs0))

/-- Witness for `C2_run_type_flow_graph_and_ordering` at the example input. -/
theorem C2_run_type_flow_graph_and_ordering_witness :
    ∃ f, (build_run_type_flow (some sampleParams) "ftb" 2).result = .ok f ∧
      f.nodes = rtNodes (some sampleParams) "ftb" sampleParams.libraries ∧
      (∀ t q s, validTrace f t = true → t = q ++ Ev.start (diffId "ftb") :: s →
        ∀ l ∈ sampleParams.libraries, Ev.finish (pricingId "ftb" l.version) ∈ q) ∧
      (∀ t q s, validTrace f t = true → t = q ++ Ev.start (notifyId "ftb") :: s →
        (∀ n ∈ f.nodes, n.id ≠ notifyId "ftb" → Ev.start n.id ∈ q) ∧
        (∀ j, Ev.start j ∉ s)) :=
  C2_run_type_flow_graph_and_ordering sampleParams "ftb" 2 (by decide)

/-- C10: when `params["libraries"]` is empty, the `calculate_{rt}_diff` node
has an empty `depends_on` (in particular it does not depend on
`prepare_{rt}_data`) and is Ready in the initial state, eligible to run
immediately; when `params["run_types"]` is empty, the same holds for
`notify_batch_complete`.  At a concrete input both relative orders of the
diff and prepare starts are valid traces: the two nodes are unordered. -/
theorem C10_empty_lists_make_diff_and_notify_immediately_ready :
    (∀ (rts : List RunTypeConfig) (rt : String) (i : Nat),
      ∃ f, (build_run_type_flow (some ⟨[], rts⟩) rt i).result = .ok f ∧
        f.findNode (diffId rt) = some (calculate_differences_node rt []) ∧
        (calculate_differences_node rt []).depends_on = [] ∧
        nodeReady [] (calculate_differences_node rt []) = true) ∧
    (∀ (libs : List Library) (i : Nat),
      ∃ f, (build_night_batch_flow (some ⟨libs, []⟩) i).result = .ok f ∧
        f.findNode "notify_batch_complete" = some (notify_batch_complete_node []) ∧
        (notify_batch_complete_node []).depends_on = [] ∧
        nodeReady [] (notify_batch_complete_node []) = true) ∧
    validTrace (flowOf (build_run_type_flow (some ⟨[], []⟩) "ftb" 0))
      [Ev.start (diffId "ftb"), Ev.start (prepareDataId "ftb")] = true ∧
    validTrace (flowOf (build_run_type_flow (some ⟨[], []⟩) "ftb" 0))
      [Ev.start (prepareDataId "ftb"), Ev.start (diffId "ftb")] = true := by
  refine ⟨?_, ?_, by decide, by decide⟩
  · intro rts rt i
    have hfl : (⟨rt ++ "_flow", store, rtNodes (some ⟨[], rts⟩) rt []⟩ : AsyncFlow).nodes
        = rtNodes (some ⟨[], rts⟩) rt [] := rfl
    refine ⟨⟨rt ++ "_flow", store, rtNodes (some ⟨[], rts⟩) rt []⟩, ?_, ?_, rfl, rfl⟩
    · rw [build_run_type_flow_some]
      rfl
    · exact rt_findNode_diff hfl
  · intro libs i
    refine ⟨⟨"Night Batch Flow", store, nbNodes (some ⟨libs, []⟩) []⟩, ?_, ?_, rfl, rfl⟩
    · rw [build_night_batch_flow_some]
      rfl
    · unfold AsyncFlow.findNode
      rw [show (⟨"Night Batch Flow", store, nbNodes (some ⟨libs, []⟩) []⟩ :
        AsyncFlow).nodes = nbNodes (some ⟨libs, []⟩) [] from rfl, nbNodes]
      rw [List.find?_cons_of_neg _ (by
        simp only [decide_eq_true_eq, prepare_batch_data_node]
        exact fun hc => notifyBatch_ne_prepareBatch hc.symm)]
      exact List.find?_cons_of_pos _ (by simp [notify_batch_complete_node])

end NightBatch
